import Mathlib

/-!
# Verification of the FinKG multi-event extraction engine

This file gives a shallow embedding, in Lean 4, of the headline-to-knowledge-graph
extraction code in `multi_event_kg_v2.py`, `multi_event_kg_1.py` and
`multi_event_kg_v3.py`, and proves (or refutes) the specification claims about it.

Modelling conventions:
* Python strings are Lean `String`s; all scanning works on `String.data` (`List Char`).
* Python `re` usage is embedded in two ways:
  - the keyword patterns `\b<literal>'?s?\b` built by the code are embedded directly
    by a word-boundary scanner (`searchKw`, `finditerKw`);
  - the free-form patterns (mechanism / causal / employment-strength tables) are kept
    verbatim as the same pattern strings and interpreted by a small regular-expression
    engine (`RE`, Brzozowski derivatives) fed by a parser `parseRE` covering exactly
    the constructs those patterns use (literals, `( ) | ? * + .`, `\s \w \. \%`,
    `[0-9]`, lazy variants).  `re.search` truthiness is `reSearch`.
* Python dicts keyed by strings are association lists in insertion order; Python sets
  are duplicate-free lists in first-insertion order.  No claim below depends on
  Python's set iteration order.
* The float arithmetic in the proximity matcher (centre distances, the `* 0.9`
  forward bias) is modelled exactly: all distances are scaled by the positive
  constant 20 (centres ×2, the bias ×10) and compared over `ℕ`, which preserves
  every comparison of the real-valued semantics.
* Fallible code (`title.lower()` on a non-string entry) is modelled with `Except`.
-/

set_option maxRecDepth 100000

namespace FinKG

/-! ## Basic character and string utilities -/

/-- Apostrophe character (used by the possessive pattern `'?s?`). -/
def apos : Char := Char.ofNat 39

/-- Python `\w` on ASCII text: letters, digits, underscore. -/
def isWordChar (c : Char) : Bool := c.isAlphanum || c = '_'

/-- Python `\s` on ASCII text. -/
def isSpaceChar (c : Char) : Bool :=
  c = ' ' || c = '\t' || c = '\n' || c = '\r' || c = '\x0b' || c = '\x0c'

/-- `[0-9]`. -/
def isDigitChar (c : Char) : Bool := '0' ≤ c && c ≤ '9'

/-- Does `n` occur as a prefix of `hay`? -/
def isPrefixL : List Char → List Char → Bool
  | [], _ => true
  | _ :: _, [] => false
  | a :: as, b :: bs => a == b && isPrefixL as bs

/-- Python `needle in hay` (substring containment). -/
def containsSub (n : List Char) : List Char → Bool
  | [] => n.isEmpty
  | c :: rest => isPrefixL n (c :: rest) || containsSub n rest

/-- Substring containment on `String`s, as in Python `kw in text`. -/
def strContains (hay n : String) : Bool := containsSub n.data hay.data

/-- Python `str.lower()` (ASCII). -/
def pyLower (s : String) : String := String.mk (s.data.map Char.toLower)

/-- Python `str.strip()`: drop whitespace from both ends. -/
def stripL (s : List Char) : List Char :=
  (((s.dropWhile isSpaceChar).reverse).dropWhile isSpaceChar).reverse

/-! ## Word-boundary keyword matching

The code builds patterns `r'\b' + re.escape(kw) + r"'?s?\b"` (assets) and
`r'\b' + re.escape(kw) + r'\b'` (movement indicators).  A `\b` holds between two
positions iff exactly one side is a word character (a missing side counts as
non-word).  The optional possessive suffix backtracks greedily: `'s`, `'`, `s`,
then nothing, taking the first variant whose end lands on a word boundary. -/

/-- Is there a word boundary between `prev` (char before the position) and `next`
(char at the position)? -/
def isBoundary (prev next : Option Char) : Bool :=
  (match prev with | none => false | some c => isWordChar c)
    != (match next with | none => false | some c => isWordChar c)

/-- First char of a list, if any. -/
def headOpt : List Char → Option Char
  | [] => none
  | c :: _ => some c

/-- Try to consume one possessive suffix variant `suf` from `rest`, requiring a word
boundary after it; `lastConsumed` is the char just before `rest`.  Returns the extra
length consumed. -/
def tryPossSuffix (lastConsumed : Char) (rest : List Char) : List Char → Option ℕ
  | [] => if isBoundary (some lastConsumed) (headOpt rest) then some 0 else none
  | s :: ss =>
    match rest with
    | [] => none
    | c :: rest' =>
      if c == s then
        match tryPossSuffix c rest' ss with
        | some n => some (n + 1)
        | none => none
      else none

/-- The suffix variants of `'?s?` in Python's backtracking order. -/
def possVariants (poss : Bool) : List (List Char) :=
  if poss then [[apos, 's'], [apos], ['s'], []] else [[]]

/-- Try each suffix variant in order. -/
def tryPossVariants (lastConsumed : Char) (rest : List Char) :
    List (List Char) → Option ℕ
  | [] => none
  | v :: vs =>
    match tryPossSuffix lastConsumed rest v with
    | some n => some n
    | none => tryPossVariants lastConsumed rest vs

/-- Match the keyword pattern at the current position: `prev` is the char before the
position, `s` the text from the position on.  On success returns the total length of
the match. -/
def matchKwHere (kw : List Char) (poss : Bool) (prev : Option Char) (s : List Char) :
    Option ℕ :=
  if kw.isEmpty then none
  else if isBoundary prev (headOpt s) && isPrefixL kw s then
    let rest := s.drop kw.length
    match kw.getLast? with
    | none => none
    | some lastc =>
      match tryPossVariants lastc rest (possVariants poss) with
      | some extra => some (kw.length + extra)
      | none => none
  else none

/-- `re.search` for the keyword pattern: does it match anywhere? -/
def searchKwAux (kw : List Char) (poss : Bool) (prev : Option Char) :
    List Char → Bool
  | [] => (matchKwHere kw poss prev []).isSome
  | c :: rest =>
    (matchKwHere kw poss prev (c :: rest)).isSome || searchKwAux kw poss (some c) rest

/-- Does `\b kw ('?s?)? \b` match anywhere in `text`? -/
def searchKw (kw : String) (poss : Bool) (text : String) : Bool :=
  searchKwAux kw.data poss none text.data

/-- `re.finditer` for the keyword pattern: non-overlapping matches, scanning left to
right and resuming after each match.  Returns `(start, end)` index pairs.  The fuel
argument only serves termination; `text.length + 1` always suffices since every step
consumes at least one character. -/
def finditerKwAux (kw : List Char) (poss : Bool) :
    ℕ → Option Char → List Char → ℕ → List (ℕ × ℕ)
  | 0, _, _, _ => []
  | fuel + 1, prev, s, i =>
    match s with
    | [] => []
    | c :: rest =>
      match matchKwHere kw poss prev (c :: rest) with
      | some len =>
        if len = 0 then finditerKwAux kw poss fuel (some c) rest (i + 1)
        else
          (i, i + len) ::
            finditerKwAux kw poss fuel ((c :: rest).get? (len - 1))
              ((c :: rest).drop len) (i + len)
      | none => finditerKwAux kw poss fuel (some c) rest (i + 1)

/-- All `(start, end)` matches of the keyword pattern in `text`. -/
def finditerKw (kw : String) (poss : Bool) (text : String) : List (ℕ × ℕ) :=
  finditerKwAux kw.data poss (text.length + 1) none text.data 0

/-! ## A small regular-expression engine

The free-form patterns of the source (mechanism, causal and employment-strength
tables) use literals, grouping, alternation, `? * +` (with lazy variants), `.`,
`\s`, `\w`, escaped `\.` and `\%`, and the class `[0-9]` — nothing else.  Since
the code only ever uses `re.search(...)` as a boolean, laziness is irrelevant
(existence of a match is the same) and matching is embedded with Brzozowski
derivatives: `reSearch r text` decides whether some substring of `text` matches
`r`.  `.` matches any character except a newline, as in Python without DOTALL. -/

inductive RE where
  | emp : RE
  | eps : RE
  | chr : Char → RE
  | dot : RE
  | spc : RE
  | wrd : RE
  | dig : RE
  | alt : RE → RE → RE
  | seq : RE → RE → RE
  | star : RE → RE
deriving DecidableEq, Repr

namespace RE

/-- Smart alternation: prune the empty language. -/
def mkAlt : RE → RE → RE
  | emp, r => r
  | r, emp => r
  | r1, r2 => alt r1 r2

/-- Smart concatenation: prune `emp` and `eps`. -/
def mkSeq : RE → RE → RE
  | emp, _ => emp
  | _, emp => emp
  | eps, r => r
  | r, eps => r
  | r1, r2 => seq r1 r2

/-- Does the regex accept the empty word? -/
def nullable : RE → Bool
  | emp => false
  | eps => true
  | chr _ => false
  | dot => false
  | spc => false
  | wrd => false
  | dig => false
  | alt r1 r2 => nullable r1 || nullable r2
  | seq r1 r2 => nullable r1 && nullable r2
  | star _ => true

/-- Brzozowski derivative with respect to a character. -/
def deriv : RE → Char → RE
  | emp, _ => emp
  | eps, _ => emp
  | chr c, a => if c == a then eps else emp
  | dot, a => if a == '\n' then emp else eps
  | spc, a => if isSpaceChar a then eps else emp
  | wrd, a => if isWordChar a then eps else emp
  | dig, a => if isDigitChar a then eps else emp
  | alt r1 r2, a => mkAlt (deriv r1 a) (deriv r2 a)
  | seq r1 r2, a =>
    if nullable r1 then mkAlt (mkSeq (deriv r1 a) r2) (deriv r2 a)
    else mkSeq (deriv r1 a) r2
  | star r, a => mkSeq (deriv r a) (star r)

/-- Does some prefix of the word match the regex? -/
def matchPfx : RE → List Char → Bool
  | r, [] => nullable r
  | r, c :: cs =>
    nullable r ||
      (match deriv r c with
       | emp => false
       | d => matchPfx d cs)

/-- Does some contiguous substring of the word match?  This is the truth value of
Python's `re.search(r, text)`. -/
def searchL (r : RE) : List Char → Bool
  | [] => nullable r
  | c :: cs => matchPfx r (c :: cs) || searchL r cs

end RE

/-- `r?` -/
def reOpt (r : RE) : RE := .alt r .eps
/-- `r+` -/
def rePlus (r : RE) : RE := .seq r (.star r)

/-! ### Parser for the pattern subset

`parseRE` turns one of the source's pattern strings into an `RE`.  The grammar:
`alt := seq ('|' seq)*`, `seq := item*`, `item := atom ('?'|'*'|'+') ('?')?`,
`atom := '(' alt ')' | '[0-9]' | '\' ('s'|'w'|'.'|'%') | '.' | plain char`.
Fuel only serves termination; the input length always suffices. -/

/-- Skip the lazy-quantifier marker (`*?`, `+?`, `??`). -/
def dropLazy : List Char → List Char
  | '?' :: s => s
  | s => s

mutual

def parseAlt (fuel : ℕ) (s : List Char) : RE × List Char :=
  match fuel with
  | 0 => (.emp, s)
  | fuel + 1 =>
    let (r1, s1) := parseSeq fuel s
    match s1 with
    | '|' :: s2 =>
      let (r2, s3) := parseAlt fuel s2
      (.alt r1 r2, s3)
    | _ => (r1, s1)

def parseSeq (fuel : ℕ) (s : List Char) : RE × List Char :=
  match fuel with
  | 0 => (.emp, s)
  | fuel + 1 =>
    match s with
    | [] => (.eps, [])
    | '|' :: _ => (.eps, s)
    | ')' :: _ => (.eps, s)
    | _ =>
      let (r1, s1) := parseItem fuel s
      let (r2, s2) := parseSeq fuel s1
      (.mkSeq r1 r2, s2)

def parseItem (fuel : ℕ) (s : List Char) : RE × List Char :=
  match fuel with
  | 0 => (.emp, s)
  | fuel + 1 =>
    let (r, s1) := parseAtom fuel s
    match s1 with
    | '?' :: s2 => (reOpt r, dropLazy s2)
    | '*' :: s2 => (.star r, dropLazy s2)
    | '+' :: s2 => (rePlus r, dropLazy s2)
    | _ => (r, s1)

def parseAtom (fuel : ℕ) (s : List Char) : RE × List Char :=
  match fuel with
  | 0 => (.emp, s)
  | fuel + 1 =>
    match s with
    | [] => (.eps, [])
    | '(' :: s1 =>
      let (r, s2) := parseAlt fuel s1
      match s2 with
      | ')' :: s3 => (r, s3)
      | _ => (r, s2)
    | '[' :: '0' :: '-' :: '9' :: ']' :: s1 => (.dig, s1)
    | '\\' :: 's' :: s1 => (.spc, s1)
    | '\\' :: 'w' :: s1 => (.wrd, s1)
    | '\\' :: '.' :: s1 => (.chr '.', s1)
    | '\\' :: '%' :: s1 => (.chr '%', s1)
    | '.' :: s1 => (.dot, s1)
    | c :: s1 => (.chr c, s1)

end

/-- Parse one of the source's regex pattern strings. -/
def parseRE (p : String) : RE := (parseAlt (4 * p.length + 8) p.data).1

/-- `re.search(p, text)` as a boolean, for the pattern subset used by the source. -/
def reSearch (p : String) (text : String) : Bool := (parseRE p).searchL text.data

/-! ## The v2 engine (`multi_event_kg_v2.py`)

### Lexicon tables

`ASSET_KEYWORDS` transcribed in dictionary order.  Nine keys
(`treasury` … `tech_sector`) are written twice in the source with identical
values; a Python dict keeps one entry at the first position, which is what the
list below contains.  Apostrophes inside keywords are written `\x27`. -/

namespace V2

def ASSET_KEYWORDS : List (String × List String) := [
  ("gold", ["gold", "bullion", "xau"]),
  ("silver", ["silver", "xag"]),
  ("dollar", ["dollar", "usd", "greenback", "dlr", "dxy", "us dollar"]),
  ("euro", ["euro", "eur"]),
  ("yen", ["yen", "jpy"]),
  ("pound", ["pound", "gbp", "sterling", "cable"]),
  ("peso", ["peso", "mxn"]),
  ("real", ["real", "brl"]),
  ("canadian_dollar", ["canadian dollar", "c$", "loonie", "cad"]),
  ("aussie", ["aussie", "australian dollar", "aud"]),
  ("franc", ["franc", "chf", "swiss franc"]),
  ("krona", ["krona", "sek"]),
  ("rand", ["rand", "zar", "south african rand"]),
  ("treasury", ["treasury", "treasuries", "t-bond", "t-bonds", "govt bond", "government bond"]),
  ("stock_market", ["stock market", "equity market", "equities", "market"]),
  ("risk_appetite", ["risk appetite", "risk-seeking", "appetite for risk", "appetite"]),
  ("safe_haven", ["safe haven", "flight to quality", "safe assets", "flight to safety"]),
  ("market_general", ["market", "markets", "trading", "bourses", "exchanges", "wall st", "main street"]),
  ("investors", ["investors", "investor", "trader", "traders", "fund", "funds", "asset managers"]),
  ("shares_general", ["shares", "share", "stocks", "stock"]),
  ("companies", ["companies", "company", "firms", "firm", "corporate", "corporates", "business", "businesses"]),
  ("tech_sector", ["tech", "technology", "apple", "microsoft", "google", "amazon", "meta", "facebook", "tesla", "nvidia", "semiconductor", "chip"]),
  ("stocks", ["stocks", "shares", "equity", "wall street", "wall st"]),
  ("reit", ["reit", "reits", "real estate"]),
  ("homebuilders", ["homebuilders", "homebuilder", "home builders"]),
  ("futures", ["futures", "index futures", "stock futures", "equity futures", "e-mini"]),
  ("etfs", ["etf", "etfs", "exchange traded fund", "exchange-traded"]),
  ("indexes", ["indexes", "indices", "market indexes", "market indices"]),
  ("sp500", ["s&p 500", "s&p", "spx", "sp500"]),
  ("dow", ["dow", "djia", "dow jones"]),
  ("nasdaq", ["nasdaq"]),
  ("nikkei", ["nikkei"]),
  ("ftse", ["ftse"]),
  ("dax", ["dax", "german dax"]),
  ("cac", ["cac", "cac 40"]),
  ("ibex", ["ibex"]),
  ("asx", ["asx", "australian shares"]),
  ("seoul_stocks", ["seoul shares", "seoul stocks"]),
  ("brazil_stocks", ["brazil stocks", "brazilian stocks", "bovespa", "brazil"]),
  ("mexico_stocks", ["mexico stocks", "mexican stocks", "mexico"]),
  ("hk_stocks", ["hk shares", "hong kong shares", "hk stocks", "hang seng"]),
  ("china_stocks", ["china stocks", "shanghai", "shenzhen"]),
  ("india_stocks", ["india stocks", "sensex", "nse"]),
  ("asia_stocks", ["asian shares", "asian stocks", "asia shares", "asia stocks",
    "asia up", "asia down", "asia gains", "asia rises", "asia falls",
    "se asia", "southeast asia"]),
  ("europe_stocks", ["europe shares", "europe stocks", "european shares", "european stocks"]),
  ("uk_stocks", ["uk shares", "uk stocks", "british shares"]),
  ("canada_stocks", ["canadian stocks", "tsx"]),
  ("bonds", ["bonds", "bonds", "treasuries", "debt", "treasury", "gilt", "bund", "bond market"]),
  ("ust2y", ["2-year", "2y", "2-yr", "two-year yield"]),
  ("ust10y", ["10-year", "10y", "10-yr", "ten-year yield"]),
  ("ust30y", ["30-year", "30y", "thirty-year yield"]),
  ("credit_spreads", ["credit spreads", "credit default swaps", "cds"]),
  ("emerging_markets", ["emerging markets", "emerging debt", "em", "latam", "em fx"]),
  ("yields", ["yields", "yield", "treasury yield", "yield curve"]),
  ("currencies", ["currencies", "currency", "forex", "fx"]),
  ("commodities", ["commodities", "commodity"]),
  ("crude", ["crude", "oil", "wti", "brent", "nymex"]),
  ("copper", ["copper", "copper futures"]),
  ("gasoline", ["gasoline", "rbob"]),
  ("vix", ["vix", "fear gauge", "fear index", "volatility index", "cboe volatility", "fear meter", "wall st\x27s fear", "wall street\x27s fear"]),
  ("sentiment", ["sentiment", "investor sentiment", "market sentiment", "risk appetite", "risk sentiment"]),
  ("confidence", ["confidence", "investor confidence", "business confidence"]),
  ("fear", ["fear", "fear index", "fear gauge", "fear meter"]),
  ("equity_market", ["equity market", "equity markets", "stock market"]),
  ("bond_market", ["bond market", "bond markets"]),
  ("mortgage_rates", ["mortgage rates", "mortgage market"]),
  ("financial_conditions", ["financial conditions", "credit conditions"]),
  ("cyclical_stocks", ["cyclical stocks", "cyclicals"]),
  ("defensive_stocks", ["defensive stocks", "defensive sectors"]),
  ("financials", ["financials", "banks", "banking", "financial sector", "financial stocks"]),
  ("tech", ["tech", "technology", "technology sector", "semiconductor", "chip stocks"]),
  ("retail", ["retail", "retail sector", "retail stocks", "department stores"]),
  ("energy", ["energy", "energy sector", "oil stocks", "energy stocks"]),
  ("healthcare", ["healthcare", "pharma", "biotech"]),
  ("consumer", ["consumer", "consumer staples", "consumer discretionary"]),
  ("small_caps", ["small cap", "smallcap", "small-cap", "russell 2000", "russell", "small caps"]),
  ("crypto", ["crypto", "cryptocurrency", "bitcoin", "btc", "digital currency", "digital asset"])]

def RATE_CUT_KEYWORDS : List String := [
  "rate cut", "rate cuts", "rate cut bets", "rate cut hopes",
  "rate cut optimism", "rate cut view", "rate cut outlook",
  "rate cut speculation", "fed cut", "us rate cut", "rate cut doubts",
  "rate cut fears", "rate reduction", "rate easing", "rate cut looms",
  "rate cut anticipated", "rate cut expected", "rate cut possibility",
  "rate cut ideas", "emergency rate cut"]

def RATE_HIKE_KEYWORDS : List String := [
  "rate hike", "rate hikes", "rate increase", "rate rise",
  "fed hike", "hike outlook", "hike path", "rate tightening",
  "taper", "tapering", "qe taper", "quantitative easing"]

def EMPLOYMENT_KEYWORDS : List String := [
  "nonfarm payrolls", "nonfarm payroll", "payrolls", "payroll",
  "jobs report", "employment report", "employment data",
  "unemployment rate", "jobless rate", "unemployment data", "jobs data",
  "labor market", "labour market", "jobs data", "employment",
  "nfp", "jolts", "adp", "jobless claims", "unemployment",
  "labor market data", "employment growth", "job growth",
  "hiring", "layoffs", "wage growth", "wages", "earnings",
  "job loss", "job gains", "job losses", "jobs added",
  "unemployment figure", "employment situation", "establishment data",
  "initial jobless claims", "continuing claims", "claims data",
  "labor force participation", "participation rate",
  "underemployment", "discouraged workers",
  "job openings", "quit rate", "quits data",
  "staffing", "labor supply", "worker shortage"]

/-- `MECHANISM_KEYWORDS`, reduced to the pair (mechanism id, pattern list) in
dictionary order; names/types are not needed by any claim. -/
def MECHANISM_KEYWORDS : List (String × List String) := [
  ("mech:ahead_of_jobs_report", [
    "ahead of.*?(jobs report|employment data|nonfarm payrolls|nfp|unemployment)",
    "before.*?(jobs report|employment data|nonfarm payrolls|payroll)",
    "(awaits?|awaiting|eyes on).*?(jobs report|employment data|payroll)",
    "(jobs report|employment data|payroll).*(looms|on tap|in focus|due|expected)",
    "watch.*?(jobs report|employment data|payroll)",
    "ahead.*?(labor market|employment)"]),
  ("mech:after_jobs_report", [
    "after.*?(jobs report|employment data|nonfarm payrolls|nfp)",
    "on.*?(jobs report|employment data|nonfarm payrolls)",
    "following.*?(jobs report|employment data|payroll)",
    "post-?(jobs report|employment)"]),
  ("mech:rate_cut_bets", [
    "rate cut (hopes?|bets?|speculation|optimism|view|outlook|ideas|odds?)",
    "(hopes?|bets?|expects?|sees?|pins?)\\s+(for|on).*?rate cut",
    "rate cut expectations?",
    "(cut.*?chances?|chances?.*?cut)",
    "(trimmed?|pared?|cut|slash).*?rate (hike|increase)"]),
  ("mech:rate_cut_fears", [
    "rate cut (doubts?|fears?|concerns?|skepticism|dim)",
    "(reduce|dim|fade).*?(cut.*?chances?|rate cut)"]),
  ("mech:rate_hike_bets", [
    "rate hike (hopes?|bets?|odds?|expectations?)",
    "hike (odds?|chances?|expectations?)",
    "(boost|raise|lift).*?(hike|tightening)"]),
  ("mech:hawkish_repricing", [
    "(sparks?|ignites?|fuels?|stokes?|renews?).*(inflation|rate hike|hike|tightening)",
    "(cements?|keeps?|supports?|puts).*on.*hike (path|track)",
    "hike (jitters|worries|concerns|fears)",
    "(reduce|dim|pare|fade).*(cut.*?chances?|cut.*?odds?)",
    "(keeps?|supports?|bolsters?).*hike"]),
  ("mech:dovish_repricing", [
    "(boost|lift|raise|increase|sees?|spurs?).*(cut.*?chances?|cut.*?odds?|cut.*?bets)",
    "path to.*?cuts? (clearer|stronger)",
    "(dovish|easing|accommodative).*(tone|tilt|pivot|shift)",
    "(supports?|fuels?).*fed rate cut"]),
  ("mech:tight_labor_market", [
    "tight(ening)?\\s+(labor|labour)\\s+market",
    "(labor|labour)\\s+market\\s+tighten(s|ing)?",
    "full\\s+(strength|employment)",
    "robust\\s+(labor|labour)\\s+market",
    "resilient\\s+(labor|labour)\\s+market",
    "(strong|resilient|robust).*hiring"]),
  ("mech:weak_labor_market", [
    "weak(ening)?\\s+(labor|labour)\\s+market",
    "soft\\s+(labor|labour)\\s+market",
    "cooling\\s+(labor|labour)\\s+market",
    "(labor|labour)\\s+market\\s+(struggles?|woes|concerns)",
    "ebbing.*?momentum",
    "slowing.*?(labor|labour|hiring)",
    "(disappointing|dismal|gloomy)\\s+(labor|labour|employment)"]),
  ("mech:unemployment_low", [
    "(unemployment|jobless).*?(falls?|drops?|declines?|hits?.*?(low|year|decade))",
    "(unemployment|jobless).*?(3\\.[0-9]|4\\.[0-9]|5\\.[0-9])\\%"]),
  ("mech:unemployment_high", [
    "(unemployment|jobless).*?(rises?|climbs?|jumps?|hits?.*?(high|peak))",
    "(unemployment|jobless).*?(8\\.|9\\.|10\\.|11\\.)[0-9]\\%"]),
  ("mech:wage_pressure", [
    "wage(s)?.*?(growth|pressure|rise|increase|rise)",
    "(rising|strong).*?wage",
    "(pay|salary|compensation).*?(rise|increase)"])]

def MOVEMENT_strong_positive : List String := [
  "surge", "soar", "rally", "jump", "spike", "boom", "explode", "rocket",
  "blowout", "smashing", "crushing", "stellar", "bullish", "beat",
  "crushed expectations", "stronger than expected", "vault", "catapult",
  "skyrocket", "leap"]

def MOVEMENT_positive : List String := [
  "gain", "rise", "climb", "advance", "improve", "boost", "up", "higher",
  "support", "lift", "strengthen", "firm", "extend gains", "rebound",
  "better than", "outperform", "exceed", "cheer", "churred", "edge up",
  "inches higher", "ticks higher", "nudge higher", "firmer", "firms",
  "add", "adds", "push higher", "rising", "buoy", "buoys", "lifted",
  "extend", "extends", "strengthen", "strengthens", "rose", "gained",
  "advanced", "rallied", "climbed", "improved", "boosted"]

def MOVEMENT_weak_positive : List String := [
  "edge up", "inch up", "recover", "rebound", "trim losses", "pare losses",
  "stabilize", "steady", "hold", "support", "moderate gains", "tick up",
  "nudge up", "creep up", "drift higher", "hold gains"]

def MOVEMENT_strong_negative : List String := [
  "plunge", "crash", "collapse", "tumble", "slammed", "crushed", "sink",
  "tanked", "hammered", "battered", "selloff", "massacre", "bloodbath",
  "dismal", "gloomy", "grim", "bleak", "slump", "crater", "nosedive",
  "dive", "plummet", "crumble"]

def MOVEMENT_negative : List String := [
  "fall", "drop", "decline", "slip", "slide", "down", "lower", "weaken",
  "bruised", "wounded", "hit", "off", "dip", "ease", "soften", "pressure",
  "bearish", "miss", "disappoint", "worse than", "underperform", "sinks",
  "falls", "drops", "declines", "slips", "slides", "weakens", "eases",
  "dips", "softens", "shed", "sheds", "trim", "trims", "pare", "pares",
  "give back", "gives back", "pull back", "pulls back", "lose", "loses",
  "lost", "erode", "erodes", "sag", "sags", "wane", "wanes", "falter",
  "falters", "stumble", "stumbles", "buckle", "buckles", "slipped",
  "dropped", "fell", "declined", "weakened", "eased", "dipped", "sagged",
  "erased", "erase", "erases"]

def MOVEMENT_weak_negative : List String := [
  "edge down", "pare gains", "retreat", "modest decline", "consolidate",
  "pullback", "correction", "cautious", "wary", "inch down", "tick down",
  "nudge lower", "drift lower", "creep down"]

def MOVEMENT_neutral : List String := [
  "flat", "steady", "stable", "unchanged", "mixed", "choppy", "volatile",
  "little changed", "narrowly", "range-bound", "muted", "subdued", "hover",
  "hovers", "linger", "lingers", "treading water", "consolidate", "consolidates",
  "hold steady", "holds steady", "remain flat", "remains flat", "stay flat", "stays flat"]

/-- `MOVEMENT_INDICATORS` in dictionary order. -/
def MOVEMENT_INDICATORS : List (String × List String) := [
  ("strong_positive", MOVEMENT_strong_positive),
  ("positive", MOVEMENT_positive),
  ("weak_positive", MOVEMENT_weak_positive),
  ("strong_negative", MOVEMENT_strong_negative),
  ("negative", MOVEMENT_negative),
  ("weak_negative", MOVEMENT_weak_negative),
  ("neutral", MOVEMENT_neutral)]

end V2

/-- One entry of a `CAUSAL_PATTERNS` table.  `requiresMovement` is
`pattern_config.get('requires_movement', False)`; `priority` is
`pattern_config.get('priority', 5)`. -/
structure CausalPattern where
  name : String
  pattern : String
  requiresMovement : Bool
  priority : ℕ
deriving DecidableEq, Repr

namespace V2

/-- `CAUSAL_PATTERNS` of v2, in source order. -/
def CAUSAL_PATTERNS : List CausalPattern := [
  ⟨"explicit_on_after",
   "(on|after|following|amid)\\s+.*?(rate cut|fed cut|jobs report|employment data|nonfarm payrolls)",
   true, 10⟩,
  ⟨"explicit_due_to",
   "(due to|thanks to|because of|as a result of)\\s+.*?(rate cut|fed cut|jobs report|employment)",
   true, 10⟩,
  ⟨"event_causes_asset",
   "(rate cut|fed cut|jobs report|employment data)\\s+(boosts?|sends?|drives?|pushes?|lifts?|supports?|weighs on|hurts?|hits?|pressures?)",
   false, 10⟩,
  ⟨"opens_door_to",
   "(opens? (the )?door (to|for)|paves? (the )?way (to|for)|clears? path (to|for)|signals?|suggests?)\\s+.*?(rate (hike|cut)|fed (hike|cut)|policy)",
   false, 10⟩,
  ⟨"reveals_shows",
   "(reveals?|shows?|indicates?|suggests?|signals?)\\s+.*?(economy|growth|labor|employment)",
   false, 9⟩,
  ⟨"generic_market_reaction",
   "(stock market|equities?|shares|market)\\s+(reacts?|responds?|opens?|closes?)\\s+(higher|lower|up|down)\\s+.*?(jobs|employment|rate)",
   true, 9⟩,
  ⟨"sentiment_lift_dip",
   "(sentiment|confidence|mood)\\s+(lift|dip|surge|fall|rises?|drops?)\\s+.*?(jobs|employment)",
   false, 9⟩,
  ⟨"fear_gauge_inverse",
   "(fear gauge|vix|volatility)\\s+(dips?|falls?|rises?|spikes?)\\s+.*?(jobs|employment|rate cut)",
   true, 8⟩,
  ⟨"passive_voice_by",
   "(shares?|stocks?|dollar|bond|gold|yield|market|equit|treasur|currencies?)\\s+\\w+\\s+by\\s+.*?(jobs?|employment|payroll|rate cut|rate hike|fed)",
   true, 10⟩,
  ⟨"movement_before_event",
   "(shares?|stocks?|dollar|bond|gold|yield|market|equit|treasur)\\s+(rose?|fell|climbed|dropped|gained|lost|rallied|slumped|surged|plunged|advanced|declined|dropped|soar|jump|spike|drifts?|ticks?|edges?|inch)\\s+(before|ahead of|in advance of|prior to)\\s+.*(jobs?|employment|payroll|rate cut|rate hike|fed)",
   false, 10⟩,
  ⟨"asset_movement_on_event",
   "(shares?|stocks?|dollar|bond|gold|yield|market|equit|treasur|currencies?)\\s+(rose?|fell|climbed|dropped|gained|lost|rallied|slumped|surged|plunged|advanced|declined|weakened|strengthened|soar|soars|soared|jump|jumps|jumped|spike|spikes|spiked|drifts?|drifting|ticks?|ticking|edges?|edging|inches?|inching|leap|leaps|leaped|dive|dives|dived|wanes?|waning|ebbs?|ebbing|pares?|paring|trims?|trimming|extends?|extending)\\s+(on|after|following|as|amid|with)\\s+.*(jobs?|employment|payroll|rate cut|rate hike|fed|labor|labour)",
   false, 10⟩,
  ⟨"asset_direction_ahead",
   "(stocks?|dollar|bond|gold|yield|market|shares?)\\s+(higher|lower|up|down|rise|fall|gain|decline)\\s+(ahead of|before|awaiting?|eyes? on|focus.* on)",
   false, 10⟩,
  ⟨"movement_despite_event",
   "(stocks?|dollar|bond|gold|yield|market|shares?)\\s+(rose?|gained|climbed|advanced|rallied).*(despite|even as|notwithstanding|shrugs? off)",
   false, 9⟩,
  ⟨"event_quality_causes_movement",
   "(strong|weak|better|worse|upbeat|disappointing|solid|tepid|robust|dismal|blowout)\\s+(jobs?|employment|payroll|labor|labour)\\s+(report|data|reading|numbers?)",
   true, 10⟩,
  ⟨"simple_asset_event_cooccurrence",
   "(stocks?|dollar|bond|market|shares?).*(jobs?|employment|payroll|rate\\s+cut|rate\\s+hike)",
   true, 7⟩,
  ⟨"event_sends_asset_direction",
   "(jobs?|employment|payroll|rate|fed|data|report|reading).*(send|push|drive|lift|weigh|pull|drag|boost).*(stocks?|dollar|bond|gold|market|shares?).*(higher|lower|up|down)",
   false, 9⟩,
  ⟨"asset_reacts_to_event",
   "(stocks?|dollar|bond|market|shares?)\\s+(react|respond|move|swing|sway|shift).*(jobs?|employment|payroll|rate|fed)",
   false, 8⟩,
  ⟨"movement_as_expectation",
   "(as|while)\\s+.*?(rate cut|jobs report|employment)\\s+(hopes?|bets?|expectations?|optimism|speculation|doubts?|fears?)",
   true, 9⟩,
  ⟨"event_quality_reaction",
   "(strong|weak|disappointing|better|worse|blowout|dismal|upbeat)\\s+.*?(jobs report|employment).*?(send|lift|weigh|boost|hurt)\\s+\\w+\\s+(higher|lower)",
   false, 8⟩,
  ⟨"movement_before",
   "(before|ahead of|awaiting?|anticipating?)\\s+.*?(rate cut|jobs report|employment data)",
   true, 8⟩,
  ⟨"eyes_on",
   "(eyes? on|focuses? on|watch(es|ing)?|awaits?)\\s+.*?(jobs report|employment data|rate decision|fed)",
   true, 8⟩,
  ⟨"lifts_dips_sentiment",
   "(lifts?|dips?|boosts?|weighs? on|dampens?|supports?|hurts?)\\s+(sentiment|mood|confidence|optimism)",
   false, 9⟩,
  ⟨"event_sends_direction",
   "(rate cut|jobs report|employment)\\s+(hopes?|bets?|data)?\\s+(send|push|drive|lift)\\s+\\w+\\s+(higher|lower|up|down)",
   false, 7⟩,
  ⟨"asset_move_ahead_event",
   "(stocks?|dollar|bond|gold|market|yen|euro|crude)\\s+(rise|fall|rally|plunge|surge|slide).*?(ahead of|before|as|awaiting)\\s+.*?(jobs report|employment|rate cut)",
   false, 7⟩,
  ⟨"policy_expectations_impact",
   "(rate cut|rate hike|fed policy|monetary policy)\\s+(hopes?|bets?|speculation|fears?)\\s+(lift|weigh|boost|hit|hurt)\\s+\\w+\\s+(higher|lower)",
   false, 7⟩,
  ⟨"direct_asset_event_link",
   "(dollar|stocks?|bond|gold|yield|crude|yen)\\s+(strength|weakness|gain|loss).*?(on|amid|after)\\s+(rate cut|jobs report)",
   false, 6⟩,
  ⟨"simple_before_after_jobs",
   "(before|after|ahead of|following|post).*?(jobs?|employment|payroll|labor|labour)",
   true, 7⟩,
  ⟨"asset_event_simple_cooccur",
   "(stock|bond|market|dollar|gold|yield|crude|shares?|equit).*(jobs?|employment|payroll|unemployment|labor|labour)",
   true, 6⟩,
  ⟨"event_asset_simple_cooccur",
   "(jobs?|employment|payroll|unemployment|labor|labour).*(stock|bond|market|dollar|gold|yield|crude|shares?|equit)",
   true, 6⟩,
  ⟨"set_to_open_pattern",
   "(set to|seen|expected|poised|likely to)\\s+(open|close|move|rise|fall)",
   false, 7⟩,
  ⟨"keeps_on_track",
   "(keeps?|puts?|maintains?).*(on track|on course|on path)",
   false, 7⟩]

end V2

/-! ### Generic small helpers shared by the embedded modules -/

/-- Stable insertion into a list sorted by string length, descending — the
behaviour of Python `sorted(keywords, key=len, reverse=True)`. -/
def insertLenDesc (x : String) : List String → List String
  | [] => [x]
  | y :: ys => if y.length ≤ x.length then x :: y :: ys else y :: insertLenDesc x ys

/-- Python `sorted(l, key=len, reverse=True)` (a stable sort). -/
def sortLenDesc (l : List String) : List String := l.foldr insertLenDesc []

/-- Generic association-list read used for keyed tables (Python `dict[k]`). -/
def alistGet {α β : Type} [DecidableEq α] : List (α × β) → α → Option β
  | [], _ => none
  | (k', v) :: rest, k => if k' = k then some v else alistGet rest k

/-- Association-list read (Python `d.get(k)` / `k in d`). -/
def alGet (m : List (String × String)) (k : String) : Option String :=
  match m with
  | [] => none
  | (k', v) :: rest => if k' = k then some v else alGet rest k

/-- Association-list write (Python `d[k] = v`), keeping insertion order. -/
def alSet (m : List (String × String)) (k v : String) : List (String × String) :=
  match m with
  | [] => [(k, v)]
  | (k', v') :: rest => if k' = k then (k', v) :: rest else (k', v') :: alSet rest k v

/-- Python `set.add` modelled on ordered duplicate-free lists. -/
def addUnique (l : List String) (x : String) : List String :=
  if l.contains x then l else l ++ [x]

/-- Python `set.update`. -/
def updUnique (l : List String) (xs : List String) : List String := xs.foldl addUnique l

/-- Twice the centre `(start + end) / 2` of a character span.  All proximity
distances are compared at scale ×20 (centres ×2, the `0.9` bias ×10), which is
an exact, order-preserving rendering of the source's real-number comparisons. -/
def spanCenter2 (s e : ℕ) : ℕ := s + e

/-- One clause-splitting separator: `\s+w\s+`, `;\s*`, or `,\s+and\s+`. -/
inductive SepPat where
  | ws (w : String)
  | semi
  | commaAnd
deriving DecidableEq, Repr

/-- Length of the leading whitespace run. -/
def spaceRun : List Char → ℕ
  | [] => 0
  | c :: cs => if isSpaceChar c then spaceRun cs + 1 else 0

/-- Match one separator pattern at the current position, returning the length of
the (greedy) match.  The words start with letters, so the leading `\s+` must
consume the whole whitespace run. -/
def matchSepAt (s : List Char) : SepPat → Option ℕ
  | .ws w =>
    let k := spaceRun s
    if k = 0 then none
    else
      let rest := s.drop k
      if isPrefixL w.data rest then
        let m := spaceRun (rest.drop w.data.length)
        if m = 0 then none else some (k + w.data.length + m)
      else none
  | .semi =>
    match s with
    | ';' :: rest => some (1 + spaceRun rest)
    | _ => none
  | .commaAnd =>
    match s with
    | ',' :: rest =>
      let k := spaceRun rest
      if k = 0 then none
      else
        let r2 := rest.drop k
        if isPrefixL "and".data r2 then
          let m := spaceRun (r2.drop 3)
          if m = 0 then none else some (1 + k + 3 + m)
        else none
    | _ => none

/-- Try the separator alternatives at this position in their listed order (the
semantics of a Python alternation at a fixed start). -/
def matchAnySepAt (s : List Char) : List SepPat → Option ℕ
  | [] => none
  | p :: ps =>
    match matchSepAt s p with
    | some n => some n
    | none => matchAnySepAt s ps

/-- `re.split` with all separators in one capturing alternation: the output
interleaves the pieces between matches with the matched separator substrings,
scanning for the leftmost match and resuming after each one.  Fuel only serves
termination; `length + 1` always suffices since a separator match is nonempty. -/
def pySplitAux (seps : List SepPat) : ℕ → List Char → List Char → List (List Char)
  | 0, acc, s => [acc.reverse ++ s]
  | fuel + 1, acc, s =>
    match s with
    | [] => [acc.reverse]
    | c :: rest =>
      match matchAnySepAt s seps with
      | some n => acc.reverse :: s.take n :: pySplitAux seps fuel [] (s.drop n)
      | none => pySplitAux seps fuel (c :: acc) rest

/-- Clause list from the split result: strip each part (pieces and captured
separators alike) and keep those longer than 3 characters; fall back to the whole
text when nothing survives. -/
def clausesOf (seps : List SepPat) (tl : String) : List String :=
  let parts := pySplitAux seps (tl.length + 1) [] tl.data
  let cs := parts.filterMap fun c =>
    let st := stripL c
    if st.length > 3 then some (String.mk st) else none
  if cs.isEmpty then [tl] else cs

/-- `'positive' in bucket / 'negative' in bucket` normalisation of a movement
bucket name to the ternary direction. -/
def normalizeDir (bucket : String) : String :=
  if strContains bucket "positive" then "positive"
  else if strContains bucket "negative" then "negative"
  else "neutral"

/-- A movement-indicator occurrence: `(start, end, indicator, direction)`. -/
abbrev MovePos := ℕ × ℕ × String × String

/-- Stable sort of movement positions by `(start, -(end - start))`, as in the
source's `sorted(movements, key=lambda x: (x[0], -(x[1] - x[0])))`. -/
def insertMovePos (x : MovePos) : List MovePos → List MovePos
  | [] => [x]
  | y :: ys =>
    if y.1 > x.1 || (y.1 = x.1 && y.2.1 - y.1 < x.2.1 - x.1) then x :: y :: ys
    else y :: insertMovePos x ys

def sortMovePos (l : List MovePos) : List MovePos := l.foldr insertMovePos []

/-- Drop overlapping matches, keeping the first (sorted) one: the sweep with
`last_end`, whose `-1` start is equivalent to `0` since starts are naturals. -/
def dropOverlaps : List MovePos → ℕ → List MovePos
  | [], _ => []
  | m :: ms, lastEnd =>
    if m.1 ≥ lastEnd then m :: dropOverlaps ms m.2.1 else dropOverlaps ms lastEnd

/-- Generic `get_all_movement_positions` over a bucket table. -/
def movementPositions (buckets : List (String × List String)) (text : String) :
    List MovePos :=
  let tl := pyLower text
  let raw := buckets.foldl (fun acc b =>
    (sortLenDesc b.2).foldl (fun acc2 ind =>
      acc2 ++ (finditerKw ind false tl).map fun p => (p.1, p.2, ind, normalizeDir b.1)) acc) []
  dropOverlaps (sortMovePos raw) 0

/-- Generic `get_asset_positions` over a keyword table: assets in first-match
(dictionary) order, each with its deduplicated `(start, end)` spans. -/
def assetPositions (table : List (String × List String)) (text : String) :
    List (String × List (ℕ × ℕ)) :=
  let tl := pyLower text
  table.foldl (fun acc a =>
    let ps := (sortLenDesc a.2).foldl (fun ps kw =>
      (finditerKw kw true tl).foldl (fun ps p => if ps.contains p then ps else ps ++ [p]) ps) []
    if ps.isEmpty then acc else acc ++ [(a.1, ps)]) []

/-- Generic `extract_asset_movement_by_proximity`: per asset, the direction of the
movement span whose centre is nearest, with the forward bias `distance *= 0.9`
when the movement follows the asset mention.  Distances are held at scale ×20
(`9 * d0` vs `10 * d0` over twice-centre differences), so every `<` comparison
agrees exactly with the source's real-valued one. -/
def proximityMovements (assetTable : List (String × List String))
    (buckets : List (String × List String)) (text : String) :
    List (String × String) :=
  let tl := pyLower text
  let aps := assetPositions assetTable tl
  let mps := movementPositions buckets tl
  if mps.isEmpty then []
  else
    aps.foldl (fun acc ap =>
      let best := ap.2.foldl (fun best pos =>
        mps.foldl (fun (best : Option (ℕ × String)) mv =>
          let ac := spanCenter2 pos.1 pos.2
          let mc := spanCenter2 mv.1 mv.2.1
          let d0 := max ac mc - min ac mc
          let d := if mc > ac then 9 * d0 else 10 * d0
          match best with
          | none => some (d, mv.2.2.2)
          | some (bd, _) => if d < bd then some (d, mv.2.2.2) else best) best)
        (none : Option (ℕ × String))
      match best with
      | some (_, dir) => acc ++ [(ap.1, dir)]
      | none => acc) []

namespace V2

/-! ### v2 detection and direction functions -/

/-- The result of `detect_event_type`. -/
structure EventFlags where
  rate_cut : Bool
  rate_hike : Bool
  employment : Bool
deriving DecidableEq, Repr

def detect_event_type (text : String) : EventFlags :=
  let tl := pyLower text
  { rate_cut := RATE_CUT_KEYWORDS.any fun k => strContains tl k
    rate_hike := RATE_HIKE_KEYWORDS.any fun k => strContains tl k
    employment := EMPLOYMENT_KEYWORDS.any fun k => strContains tl k }

def detect_mechanisms (text : String) : List String :=
  let tl := pyLower text
  MECHANISM_KEYWORDS.filterMap fun m =>
    if m.2.any (fun p => reSearch p tl) then some m.1 else none

def detect_assets (text : String) : List String :=
  let tl := pyLower text
  ASSET_KEYWORDS.filterMap fun a =>
    if a.2.any (fun kw => searchKw kw true tl) then some a.1 else none

def STRENGTH_strong : List String := [
  "strong.*job", "robust.*job", "blowout.*job", "solid.*job",
  "beat.*expect", "exceed.*expect", "better.*than.*expect",
  "surprise.*job", "stunning.*job", "crush", "smashing",
  "upbeat.*job", "upbeat.*employment", "upbeat.*labor",
  "upbeat.*payroll", "upbeat.*nonfarm",
  "tight.*labor", "labor.*tight", "market.*tighten",
  "labor.*improv", "employment.*improv",
  "claims.*fall", "claims.*drop", "claims.*declin",
  "payrolls.*beat", "payrolls.*exceed",
  "stronger.*than.*expect", "larger.*than.*expect",
  "jobs.*added", "employment.*growth",
  "labor.*resilient", "labor.*robust",
  "nonfarm.*rise", "payroll.*rise",
  "payroll.*beat", "payrolls?.*beat", "jobs?.*beat",
  "robust.*hiring", "strong.*hiring",
  "labor.*strength", "employment.*strength",
  "healthy.*labor", "healthy.*employment"]

def STRENGTH_weak : List String := [
  "weak.*job", "disappointing.*job", "miss.*expect",
  "soft.*job", "tepid.*job", "dismal.*job",
  "worse.*than.*expect", "below.*expect",
  "claims.*rise", "claims.*jump", "claims.*surge",
  "unemployment.*rise", "unemployment.*climb",
  "labor.*soften", "labor.*weaken", "labor.*cool",
  "payrolls.*miss", "payrolls.*disappoint",
  "weaker.*than.*expect", "smaller.*than.*expect",
  "job.*loss", "jobs?.*lost", "layoff",
  "labor.*slack", "employment.*weak",
  "gloomy.*job", "grim.*job", "bleak.*job",
  "slowing.*hiring", "hiring.*slow"]

def detect_employment_strength (text : String) : Option String :=
  let tl := pyLower text
  let has_strong := STRENGTH_strong.any fun p => reSearch p tl
  let has_weak := STRENGTH_weak.any fun p => reSearch p tl
  if has_strong && has_weak then some "mixed"
  else if has_strong then some "strong"
  else if has_weak then some "weak"
  else none

/-- Word-boundary occurrence of any indicator of the bucket. -/
def anyIndicator (inds : List String) (tl : String) : Bool :=
  inds.any fun i => searchKw i false tl

def infer_direction_from_clause (clause : String) : String :=
  let cl := pyLower clause
  if anyIndicator MOVEMENT_strong_negative cl then "negative"
  else if anyIndicator MOVEMENT_negative cl then "negative"
  else if anyIndicator MOVEMENT_weak_negative cl then "negative"
  else if anyIndicator MOVEMENT_strong_positive cl then "positive"
  else if anyIndicator MOVEMENT_positive cl then "positive"
  else if anyIndicator MOVEMENT_weak_positive cl then "positive"
  else if anyIndicator MOVEMENT_neutral cl then "neutral"
  else "neutral"

def infer_direction_from_movement (text : String) : String :=
  let tl := pyLower text
  if anyIndicator MOVEMENT_strong_negative tl then "negative"
  else if anyIndicator MOVEMENT_negative tl then "negative"
  else if anyIndicator MOVEMENT_weak_negative tl then "negative"
  else if anyIndicator MOVEMENT_strong_positive tl then "positive"
  else if anyIndicator MOVEMENT_positive tl then "positive"
  else if anyIndicator MOVEMENT_weak_positive tl then "positive"
  else if anyIndicator MOVEMENT_neutral tl then "neutral"
  else "neutral"

/-- The clause-splitting separators of v2, in source order. -/
def SPLIT_PATTERNS : List SepPat := [
  .ws "while", .ws "as", .ws "even as", .ws "whereas", .ws "but", .ws "yet",
  .ws "meanwhile", .ws "however", .ws "though", .ws "although", .semi, .commaAnd]

def get_all_movement_positions (text : String) : List MovePos :=
  movementPositions MOVEMENT_INDICATORS text

def get_asset_positions (text : String) : List (String × List (ℕ × ℕ)) :=
  assetPositions ASSET_KEYWORDS text

def extract_asset_movement_by_proximity (text : String) : List (String × String) :=
  proximityMovements ASSET_KEYWORDS MOVEMENT_INDICATORS text

/-- `extract_asset_movement_pairs`: clause phase, proximity refinement, and the
closure pass defaulting every remaining detected asset to neutral. -/
def extract_asset_movement_pairs (text : String) : List (String × String) :=
  let tl := pyLower text
  let all_assets := detect_assets tl
  let clauses := clausesOf SPLIT_PATTERNS tl
  let step := fun (st : List (String × String) × List String) (clause : String) =>
    let clause_assets := ASSET_KEYWORDS.filterMap fun a =>
      if a.2.any (fun kw => searchKw kw true clause) then some a.1 else none
    let clause_direction := infer_direction_from_clause clause
    clause_assets.foldl (fun (st : List (String × String) × List String) asset =>
      if alGet st.1 asset = none || clause_direction ≠ "neutral" then
        (alSet st.1 asset clause_direction, addUnique st.2 asset)
      else st) st
  let phase1 := clauses.foldl step ([], [])
  let asset_movements := phase1.1
  let assets_with_directions := phase1.2
  let remaining := all_assets.filter fun a => ¬ assets_with_directions.contains a
  let asset_movements :=
    if ¬ remaining.isEmpty || clauses.length = 1 then
      (extract_asset_movement_by_proximity text).foldl (fun m ad =>
        if alGet m ad.1 = none || alGet m ad.1 = some "neutral" then alSet m ad.1 ad.2
        else m) asset_movements
    else asset_movements
  all_assets.foldl (fun m a => if alGet m a = none then alSet m a "neutral" else m)
    asset_movements

/-- The explicit-VIX-direction test inside `infer_direction_with_context`: raw
substring co-occurrence of `'vix'` with an indicator from the `positive`,
`strong_positive`, `negative` or `strong_negative` buckets only. -/
def vix_explicit (tl : String) : Bool :=
  (MOVEMENT_positive ++ MOVEMENT_strong_positive).any
    (fun i => strContains tl "vix" && strContains tl i)
  || (MOVEMENT_negative ++ MOVEMENT_strong_negative).any
    (fun i => strContains tl "vix" && strContains tl i)

def infer_direction_with_context (text : String) (_eventTy : String)
    (employmentStrength : Option String) (mechanisms : List String)
    (assetTy : String) (baseDirection : Option String) : String :=
  let direction :=
    match baseDirection with
    | some d => d
    | none => infer_direction_from_movement text
  let direction :=
    if assetTy == "vix" then
      if ¬ vix_explicit (pyLower text) then
        if direction == "positive" then "negative"
        else if direction == "negative" then "positive"
        else direction
      else direction
    else direction
  let direction :=
    if employmentStrength == some "strong" then
      if assetTy == "dollar" then
        if direction == "neutral" then "positive" else direction
      else if assetTy == "bonds" || assetTy == "yields" || assetTy == "gold" then
        if direction == "neutral" then "negative" else direction
      else direction
    else if employmentStrength == some "weak" then
      if assetTy == "dollar" then
        if direction == "neutral" then "negative" else direction
      else if assetTy == "bonds" || assetTy == "gold" then
        if direction == "neutral" then "positive" else direction
      else direction
    else direction
  let direction :=
    if mechanisms.contains "mech:rate_cut_bets" || mechanisms.contains "mech:dovish_repricing" then
      if assetTy == "dollar" && direction == "neutral" then "negative"
      else if (assetTy == "stocks" || assetTy == "gold" || assetTy == "bonds")
          && direction == "neutral" then "positive"
      else direction
    else direction
  let direction :=
    if mechanisms.contains "mech:rate_hike_bets" || mechanisms.contains "mech:hawkish_repricing" then
      if assetTy == "dollar" && direction == "neutral" then "positive"
      else if (assetTy == "stocks" || assetTy == "bonds") && direction == "neutral" then "negative"
      else direction
    else direction
  direction

/-- Any movement indicator (any bucket) occurs with a word boundary. -/
def has_movement (tl : String) : Bool :=
  MOVEMENT_INDICATORS.any fun b => b.2.any fun i => searchKw i false tl

/-- `match_causal_pattern`: best match by strict priority improvement over the
table in source order, skipping `requires_movement` rules when no movement
indicator is present.  The `asset_type` argument is unused in the source too. -/
def match_causal_pattern (text : String) (_assetTy : String) : Option (String × String) :=
  let tl := pyLower text
  let hm := has_movement tl
  (CAUSAL_PATTERNS.foldl
    (fun (best : Option (String × String) × Int) pc =>
      if pc.requiresMovement && ¬ hm then best
      else if reSearch pc.pattern tl then
        if (pc.priority : Int) > best.2 then
          (some (pc.name, infer_direction_from_movement tl), (pc.priority : Int))
        else best
      else best)
    (none, -1)).1

/-- A rule passes the movement gate: if it requires movement, an indicator is
present. -/
def pcEligible (hm : Bool) (pc : CausalPattern) : Prop :=
  pc.requiresMovement = true → hm = true

/-- Invariant of the best-so-far state of the fold inside
`match_causal_pattern`, relative to the processed prefix `tbl`. -/
def mcpInv (tl : String) (hm : Bool) (tbl : List CausalPattern)
    (st : Option (String × String) × Int) : Prop :=
  (st = (none, -1) ∧
    ∀ pc ∈ tbl, pcEligible hm pc → reSearch pc.pattern tl = false) ∨
  (∃ pc ∈ tbl, pcEligible hm pc ∧ reSearch pc.pattern tl = true ∧
    st.1 = some (pc.name, infer_direction_from_movement tl) ∧
    st.2 = (pc.priority : Int) ∧
    ∀ pc' ∈ tbl, pcEligible hm pc' → reSearch pc'.pattern tl = true →
      pc'.priority ≤ pc.priority)

/-! ### v2 extraction loop and JSON-export edge aggregation -/

structure EventEdge where
  event : String
  target : String
  targetTy : String
  direction : String
  title : String
  pattern : String
  date : Option String
  url : Option String
deriving DecidableEq, Repr

structure MechEdge where
  mechanism : String
  asset : String
  direction : String
  title : String
  pattern : String
  date : Option String
  url : Option String
deriving DecidableEq, Repr

structure Relations where
  events : List String
  mechanisms : List String
  assets : List String
  event_edges : List EventEdge
  mechanism_edges : List MechEdge
deriving DecidableEq, Repr

def emptyRelations : Relations := ⟨[], [], [], [], []⟩

/-- The single-primary-event selection of v2 (an `if`/`elif` chain). -/
def primary_event (f : EventFlags) : Option String :=
  if f.employment then some "employment"
  else if f.rate_cut then some "rate_cut"
  else if f.rate_hike then some "rate_hike"
  else none

/-- The caller-side provenance label: the matched pattern name, or the
`'co_occurrence'` fallback when no causal pattern matched. -/
def pattern_name (text : String) (assetTy : String) : String :=
  match match_causal_pattern text assetTy with
  | some r => r.1
  | none => "co_occurrence"

/-- The body of the v2 extraction loop for one (valid) headline; `df` is absent,
so dates and urls are `none`. -/
def processTitle (rel : Relations) (title : String) : Relations :=
  let tl := pyLower title
  let ev := detect_event_type tl
  if ¬ (ev.rate_cut || ev.rate_hike || ev.employment) then rel
  else
    match primary_event ev with
    | none => rel
    | some pe =>
      let rel := { rel with events := addUnique rel.events pe }
      let mechs := detect_mechanisms tl
      let rel := { rel with mechanisms := updUnique rel.mechanisms mechs }
      let assets := detect_assets tl
      if assets.isEmpty then rel
      else
        let rel := { rel with assets := updUnique rel.assets assets }
        let strength :=
          if pe == "employment" then detect_employment_strength tl else none
        let movements := extract_asset_movement_pairs title
        assets.foldl (fun rel asset =>
          let base := (alGet movements asset).getD "neutral"
          let dir := infer_direction_with_context tl pe strength mechs asset (some base)
          let pname := pattern_name tl asset
          if ¬ mechs.isEmpty then
            mechs.foldl (fun rel mech =>
              { rel with
                event_edges := rel.event_edges ++
                  [⟨pe, mech, "mechanism", dir, title, pname, none, none⟩]
                mechanism_edges := rel.mechanism_edges ++
                  [⟨mech, asset, dir, title, pname, none, none⟩] }) rel
          else
            { rel with event_edges := rel.event_edges ++
                [⟨pe, asset, "asset", dir, title, pname, none, none⟩] }) rel

/-- `extract_multi_event_relations` with `df = None`.  Entries are
`Option String`: `none` models a missing / non-string row, which the guard
`if not title or not isinstance(title, str): continue` skips, as it does the
empty string. -/
def extract_multi_event_relations (titles : List (Option String)) : Relations :=
  titles.foldl (fun rel t =>
    match t with
    | none => rel
    | some s => if s.isEmpty then rel else processTitle rel s) emptyRelations

/-- One evidence record of an exported edge. -/
structure Evid where
  title : String
  date : Option String
  url : Option String
  pattern : String
deriving DecidableEq, Repr

/-- Accumulated state of one `event_edge_groups` entry. -/
structure EGroup where
  targetTy : String
  polarity : String
  evidence : List Evid
  patterns : List (String × ℕ)
deriving DecidableEq, Repr

abbrev EEKey := String × String × String

def eKey (e : EventEdge) : EEKey := (e.event, e.target, e.targetTy)

def evidOf (e : EventEdge) : Evid := ⟨e.title, e.date, e.url, e.pattern⟩

/-- `patterns[pattern] += 1` on an insertion-ordered counter. -/
def bumpPattern (ps : List (String × ℕ)) (p : String) : List (String × ℕ) :=
  match ps with
  | [] => [(p, 1)]
  | (q, n) :: rest => if q = p then (q, n + 1) :: rest else (q, n) :: bumpPattern rest p

/-- Fold one event edge into the groups: `target_type` and `polarity` are
overwritten by every contributing edge, the evidence list and pattern counter
grow. -/
def egUpd : List (EEKey × EGroup) → EventEdge → List (EEKey × EGroup)
  | [], e => [(eKey e, ⟨e.targetTy, e.direction, [evidOf e], [(e.pattern, 1)]⟩)]
  | (k, g) :: rest, e =>
    if k = eKey e then
      (k, ⟨e.targetTy, e.direction, g.evidence ++ [evidOf e],
           bumpPattern g.patterns e.pattern⟩) :: rest
    else (k, g) :: egUpd rest e

def event_edge_groups (es : List EventEdge) : List (EEKey × EGroup) :=
  es.foldl egUpd []

/-- An exported knowledge-graph edge (the claim-relevant fields). -/
structure KgEdge where
  source : String
  target : String
  relation : String
  polarity : String
  evidence_count : ℕ
  primary_pattern : String
  evidence : List Evid
deriving DecidableEq, Repr

/-- Python `max(items, key=itemgetter(1))`: the first maximum in order. -/
def maxPattern : List (String × ℕ) → String
  | [] => ""
  | (p, n) :: rest =>
    (rest.foldl (fun (best : String × ℕ) q => if q.2 > best.2 then q else best) (p, n)).1

def exportEventEdge (k : EEKey) (g : EGroup) : KgEdge :=
  let relation :=
    if g.targetTy == "mechanism" then "TRIGGERS"
    else if g.polarity == "positive" then "POSITIVELY_IMPACTS"
    else if g.polarity == "negative" then "NEGATIVELY_IMPACTS"
    else "INDIRECTLY_AFFECTS"
  let target := if g.targetTy == "mechanism" then k.2.1 else "asset:" ++ k.2.1
  ⟨"event:" ++ k.1, target, relation, g.polarity, g.evidence.length,
   maxPattern g.patterns, g.evidence.take 10⟩

/-- The event-edge part of `build_multi_event_knowledge_graph`. -/
def build_event_edges (es : List EventEdge) : List KgEdge :=
  (event_edge_groups es).map fun kg => exportEventEdge kg.1 kg.2

/-- Accumulated state of one `mech_edge_groups` entry. -/
structure MGroup where
  polarity : String
  evidence : List Evid
  patterns : List (String × ℕ)
deriving DecidableEq, Repr

abbrev MKey := String × String

def mKey (e : MechEdge) : MKey := (e.mechanism, e.asset)

def mEvidOf (e : MechEdge) : Evid := ⟨e.title, e.date, e.url, e.pattern⟩

def mgUpd : List (MKey × MGroup) → MechEdge → List (MKey × MGroup)
  | [], e => [(mKey e, ⟨e.direction, [mEvidOf e], [(e.pattern, 1)]⟩)]
  | (k, g) :: rest, e =>
    if k = mKey e then
      (k, ⟨e.direction, g.evidence ++ [mEvidOf e], bumpPattern g.patterns e.pattern⟩) :: rest
    else (k, g) :: mgUpd rest e

def mech_edge_groups (es : List MechEdge) : List (MKey × MGroup) :=
  es.foldl mgUpd []

def exportMechEdge (k : MKey) (g : MGroup) : KgEdge :=
  let relation :=
    if g.polarity == "positive" then "POSITIVELY_IMPACTS"
    else if g.polarity == "negative" then "NEGATIVELY_IMPACTS"
    else "INDIRECTLY_AFFECTS"
  ⟨k.1, "asset:" ++ k.2, relation, g.polarity, g.evidence.length,
   maxPattern g.patterns, g.evidence.take 10⟩

/-- The mechanism-edge part of `build_multi_event_knowledge_graph`. -/
def build_mech_edges (es : List MechEdge) : List KgEdge :=
  (mech_edge_groups es).map fun kg => exportMechEdge kg.1 kg.2

end V2

/-! ## The first-generation engine (`multi_event_kg_1.py`)

Its event-keyword lists and `MECHANISM_KEYWORDS` table are character-identical
to v2's (checked against the source), so those are shared; its asset keywords,
movement indicators, causal patterns and several functions differ and are
embedded separately.  Record shapes (`EventEdge`, `Relations`, …) are shared
with the v2 embedding. -/

namespace KG1

def ASSET_KEYWORDS : List (String × List String) := [
  ("gold", ["gold", "bullion", "xau"]),
  ("silver", ["silver", "xag"]),
  ("dollar", ["dollar", "usd", "greenback", "dlr", "dxy", "us dollar"]),
  ("euro", ["euro", "eur"]),
  ("yen", ["yen", "jpy"]),
  ("pound", ["pound", "gbp", "sterling", "cable"]),
  ("peso", ["peso", "mxn"]),
  ("real", ["real", "brl"]),
  ("canadian_dollar", ["canadian dollar", "c$", "loonie", "cad"]),
  ("aussie", ["aussie", "australian dollar", "aud"]),
  ("franc", ["franc", "chf", "swiss franc"]),
  ("krona", ["krona", "sek"]),
  ("rand", ["rand", "zar", "south african rand"]),
  ("stocks", ["stocks", "shares", "equity", "equities", "wall street", "wall st"]),
  ("reit", ["reit", "reits", "real estate"]),
  ("sp500", ["s&p 500", "s&p", "spx", "sp500"]),
  ("dow", ["dow", "djia", "dow jones"]),
  ("nasdaq", ["nasdaq"]),
  ("nikkei", ["nikkei"]),
  ("ftse", ["ftse"]),
  ("seoul_stocks", ["seoul shares", "seoul stocks"]),
  ("brazil_stocks", ["brazil stocks", "brazilian stocks", "bovespa", "brazil"]),
  ("mexico_stocks", ["mexico stocks", "mexican stocks", "mexico"]),
  ("hk_stocks", ["hk shares", "hong kong shares", "hk stocks", "hang seng"]),
  ("china_stocks", ["china stocks", "shanghai", "shenzhen"]),
  ("india_stocks", ["india stocks", "sensex", "nse"]),
  ("asia_stocks", ["asian shares", "asian stocks", "asia shares", "asia stocks",
    "asia up", "asia down", "asia gains", "asia rises", "asia falls",
    "se asia", "southeast asia"]),
  ("europe_stocks", ["europe shares", "europe stocks", "european shares", "european stocks"]),
  ("uk_stocks", ["uk shares", "uk stocks", "british shares"]),
  ("canada_stocks", ["canadian stocks", "tsx"]),
  ("bonds", ["bonds", "treasuries", "debt", "treasury", "gilt", "bund", "bond market"]),
  ("ust2y", ["2-year", "2y", "2-yr", "two-year yield"]),
  ("ust10y", ["10-year", "10y", "10-yr", "ten-year yield"]),
  ("ust30y", ["30-year", "30y", "thirty-year yield"]),
  ("credit_spreads", ["credit spreads", "credit default swaps", "cds"]),
  ("emerging_markets", ["emerging markets", "emerging debt", "em", "latam", "em fx"]),
  ("yields", ["yields", "yield", "treasury yield", "yield curve"]),
  ("currencies", ["currencies", "currency", "forex", "fx"]),
  ("commodities", ["commodities", "commodity"]),
  ("crude", ["crude", "oil", "wti", "brent", "nymex"]),
  ("copper", ["copper", "copper futures"]),
  ("gasoline", ["gasoline", "rbob"]),
  ("financials", ["financials", "banks", "banking", "financial sector", "financial stocks"]),
  ("tech", ["tech", "technology", "technology sector", "semiconductor", "chip stocks"]),
  ("retail", ["retail", "retail sector", "retail stocks", "department stores"]),
  ("energy", ["energy", "energy sector", "oil stocks", "energy stocks"]),
  ("healthcare", ["healthcare", "pharma", "biotech"]),
  ("consumer", ["consumer", "consumer staples", "consumer discretionary"]),
  ("small_caps", ["small cap", "smallcap", "small-cap", "russell 2000", "russell", "small caps"]),
  ("crypto", ["crypto", "cryptocurrency", "bitcoin", "btc", "digital currency", "digital asset"])]

def MOVEMENT_strong_positive : List String := [
  "surge", "soar", "rally", "jump", "spike", "boom", "explode", "rocket",
  "blowout", "smashing", "crushing", "stellar", "bullish", "beat",
  "crushed expectations", "stronger than expected"]

def MOVEMENT_positive : List String := [
  "gain", "rise", "climb", "advance", "improve", "boost", "up", "higher",
  "support", "lift", "strengthen", "firm", "extend gains", "rebound",
  "better than", "outperform", "exceed", "cheer", "churred"]

def MOVEMENT_weak_positive : List String := [
  "edge up", "inch up", "recover", "rebound", "trim losses", "pare losses",
  "stabilize", "steady", "hold", "support", "moderate gains"]

def MOVEMENT_strong_negative : List String := [
  "plunge", "crash", "collapse", "tumble", "slammed", "crushed", "sink",
  "tanked", "hammered", "battered", "selloff", "massacre", "bloodbath",
  "dismal", "gloomy", "grim", "bleak"]

def MOVEMENT_negative : List String := [
  "fall", "drop", "decline", "slip", "slide", "down", "lower", "weaken",
  "bruised", "wounded", "hit", "off", "dip", "ease", "soften", "pressure",
  "bearish", "miss", "disappoint", "worse than", "underperform"]

def MOVEMENT_weak_negative : List String := [
  "edge down", "pare gains", "retreat", "modest decline", "consolidate",
  "pullback", "correction", "cautious", "wary"]

def MOVEMENT_neutral : List String := [
  "flat", "steady", "stable", "unchanged", "mixed", "choppy", "volatile",
  "little changed", "narrowly", "range-bound", "muted", "subdued"]

def MOVEMENT_INDICATORS : List (String × List String) := [
  ("strong_positive", MOVEMENT_strong_positive),
  ("positive", MOVEMENT_positive),
  ("weak_positive", MOVEMENT_weak_positive),
  ("strong_negative", MOVEMENT_strong_negative),
  ("negative", MOVEMENT_negative),
  ("weak_negative", MOVEMENT_weak_negative),
  ("neutral", MOVEMENT_neutral)]

/-- `CAUSAL_PATTERNS` of the first-generation module, in source order. -/
def CAUSAL_PATTERNS : List CausalPattern := [
  ⟨"explicit_on_after",
   "(on|after|following|amid)\\s+.*?(rate cut|fed cut|jobs report|employment data|nonfarm payrolls)",
   true, 10⟩,
  ⟨"explicit_due_to",
   "(due to|thanks to|because of|as a result of)\\s+.*?(rate cut|fed cut|jobs report|employment)",
   true, 10⟩,
  ⟨"event_causes_asset",
   "(rate cut|fed cut|jobs report|employment data)\\s+(boosts?|sends?|drives?|pushes?|lifts?|supports?|weighs on|hurts?|hits?|pressures?)",
   false, 10⟩,
  ⟨"movement_as_expectation",
   "(as|while)\\s+.*?(rate cut|jobs report|employment)\\s+(hopes?|bets?|expectations?|optimism|speculation|doubts?|fears?)",
   true, 9⟩,
  ⟨"event_quality_reaction",
   "(strong|weak|disappointing|better|worse|blowout|dismal)\\s+.*?(jobs report|employment).*?(send|lift|weigh|boost|hurt)\\s+\\w+\\s+(higher|lower)",
   false, 8⟩,
  ⟨"movement_before",
   "(before|ahead of|awaiting?|anticipating?)\\s+.*?(rate cut|jobs report|employment data)",
   true, 8⟩,
  ⟨"event_sends_direction",
   "(rate cut|jobs report|employment)\\s+(hopes?|bets?|data)?\\s+(send|push|drive|lift)\\s+\\w+\\s+(higher|lower|up|down)",
   false, 7⟩,
  ⟨"asset_move_ahead_event",
   "(stocks?|dollar|bond|gold|market|yen|euro|crude)\\s+(rise|fall|rally|plunge|surge|slide).*?(ahead of|before|as|awaiting)\\s+.*?(jobs report|employment|rate cut)",
   false, 7⟩,
  ⟨"policy_expectations_impact",
   "(rate cut|rate hike|fed policy|monetary policy)\\s+(hopes?|bets?|speculation|fears?)\\s+(lift|weigh|boost|hit|hurt)\\s+\\w+\\s+(higher|lower)",
   false, 7⟩,
  ⟨"direct_asset_event_link",
   "(dollar|stocks?|bond|gold|yield|crude|yen)\\s+(strength|weakness|gain|loss).*?(on|amid|after)\\s+(rate cut|jobs report)",
   false, 6⟩]

/-- Event detection: code and keyword lists identical to v2's. -/
def detect_event_type (text : String) : V2.EventFlags :=
  let tl := pyLower text
  { rate_cut := V2.RATE_CUT_KEYWORDS.any fun k => strContains tl k
    rate_hike := V2.RATE_HIKE_KEYWORDS.any fun k => strContains tl k
    employment := V2.EMPLOYMENT_KEYWORDS.any fun k => strContains tl k }

/-- Mechanism detection: the table is identical to v2's; the function matches the
patterns case-insensitively on its argument (no internal lowering in the source,
modelled by lowering since all patterns are lowercase). -/
def detect_mechanisms (text : String) : List String :=
  let tl := pyLower text
  V2.MECHANISM_KEYWORDS.filterMap fun m =>
    if m.2.any (fun p => reSearch p tl) then some m.1 else none

/-- Asset detection: `\b keyword \b` without the possessive suffix,
case-insensitively. -/
def detect_assets (text : String) : List String :=
  let tl := pyLower text
  ASSET_KEYWORDS.filterMap fun a =>
    if a.2.any (fun kw => searchKw kw false tl) then some a.1 else none

def STRENGTH_strong : List String := [
  "strong.*job", "robust.*job", "blowout.*job", "solid.*job",
  "beat.*expect", "exceed.*expect", "better.*than.*expect",
  "surprise.*job", "stunning.*job", "crush", "smashing"]

def STRENGTH_weak : List String := [
  "weak.*job", "soft.*job", "tepid.*job", "disappointing.*job",
  "dismal.*job", "grim.*job", "miss.*expect", "below.*expect",
  "worse.*than.*expect", "slump", "faltered"]

def STRENGTH_mixed : List String := ["mixed.*job", "mixed.*employment", "mixed.*labor"]

def detect_employment_strength (text : String) : Option String :=
  let tl := pyLower text
  if STRENGTH_strong.any (fun p => reSearch p tl) then some "strong"
  else if STRENGTH_weak.any (fun p => reSearch p tl) then some "weak"
  else if STRENGTH_mixed.any (fun p => reSearch p tl) then some "mixed"
  else none

/-- Raw substring containment of any indicator of the bucket (the
first-generation module checks `indicator in text`, without word boundaries). -/
def anyIndicatorSub (inds : List String) (text : String) : Bool :=
  inds.any fun i => strContains text i

def infer_direction_from_movement (text : String) : String :=
  if anyIndicatorSub MOVEMENT_strong_negative text then "negative"
  else if anyIndicatorSub MOVEMENT_negative text then "negative"
  else if anyIndicatorSub MOVEMENT_weak_negative text then "negative"
  else if anyIndicatorSub MOVEMENT_strong_positive text then "positive"
  else if anyIndicatorSub MOVEMENT_positive text then "positive"
  else if anyIndicatorSub MOVEMENT_weak_positive text then "positive"
  else if anyIndicatorSub MOVEMENT_neutral text then "neutral"
  else "neutral"

def infer_direction_with_context (text : String) (eventTy : String)
    (employmentStrength : Option String) (mechanisms : List String) : String :=
  let base_direction := infer_direction_from_movement text
  let tl := pyLower text
  if eventTy == "employment" && employmentStrength.isSome then
    if employmentStrength == some "weak" then
      if mechanisms.contains "mech:rate_cut_bets" || mechanisms.contains "mech:dovish_repricing" then
        if ["dollar", "usd", "greenback"].any (fun w => strContains tl w) then "negative"
        else if ["bond", "treasur", "gold"].any (fun w => strContains tl w) then "positive"
        else base_direction
      else base_direction
    else if employmentStrength == some "strong" then
      if mechanisms.contains "mech:rate_hike_worries" || mechanisms.contains "mech:hawkish_repricing" then
        if ["dollar", "usd", "greenback"].any (fun w => strContains tl w) then "positive"
        else if ["bond", "treasur", "gold"].any (fun w => strContains tl w) then "negative"
        else base_direction
      else base_direction
    else base_direction
  else base_direction

/-- Stable insertion by priority, descending (Python
`sorted(CAUSAL_PATTERNS, key=lambda x: x['priority'], reverse=True)`). -/
def insertPrioDesc (x : CausalPattern) : List CausalPattern → List CausalPattern
  | [] => [x]
  | y :: ys => if y.priority ≤ x.priority then x :: y :: ys else y :: insertPrioDesc x ys

def sortPrioDesc (l : List CausalPattern) : List CausalPattern := l.foldr insertPrioDesc []

/-- First pattern of the priority-sorted table matching the text, if any.  The
`requires_movement` flags of the table are never consulted. -/
def selected_rule (text : String) : Option CausalPattern :=
  (sortPrioDesc CAUSAL_PATTERNS).find? fun pc => reSearch pc.pattern (pyLower text)

/-- `match_causal_pattern` of the first-generation module: the highest-priority
matching rule, with the `('general_context', …)` fallback — it never returns
`None`. -/
def match_causal_pattern (text : String) (_assetTy : String) : String × String :=
  match selected_rule text with
  | some pc => (pc.name, infer_direction_from_movement text)
  | none => ("general_context", infer_direction_from_movement text)

/-- The primary-event assignments of the extraction loop: three successive `if`
statements (not `elif`), so a later-checked detected kind overwrites an earlier
one. -/
def kg1_primary_event (f : V2.EventFlags) : Option String :=
  let p : Option String := none
  let p := if f.employment then some "employment" else p
  let p := if f.rate_cut then some "rate_cut" else p
  let p := if f.rate_hike then some "rate_hike" else p
  p

/-- The loop body for one headline that survived `title.lower()`. -/
def processTitle (rel : V2.Relations) (title : String) : V2.Relations :=
  let tl := pyLower title
  let ev := detect_event_type tl
  if ¬ (ev.rate_cut || ev.rate_hike || ev.employment) then rel
  else
    let mechs := detect_mechanisms tl
    let assets := detect_assets tl
    if assets.isEmpty then rel
    else
      let strength := if ev.employment then detect_employment_strength tl else none
      let events1 := if ev.employment then addUnique rel.events "employment" else rel.events
      let events2 := if ev.rate_cut then addUnique events1 "rate_cut" else events1
      let events3 := if ev.rate_hike then addUnique events2 "rate_hike" else events2
      match kg1_primary_event ev with
      | none => rel
      | some pe =>
        let rel := { rel with events := events3
                              mechanisms := updUnique rel.mechanisms mechs
                              assets := updUnique rel.assets assets }
        let etc := if ev.employment then "employment" else "monetary_policy"
        let dir := infer_direction_with_context tl etc strength mechs
        assets.foldl (fun rel asset =>
          if ¬ mechs.isEmpty then
            mechs.foldl (fun rel mech =>
              let pname := (match_causal_pattern tl asset).1
              { rel with
                event_edges := rel.event_edges ++
                  [⟨pe, mech, "mechanism", dir, title, pname, none, none⟩]
                mechanism_edges := rel.mechanism_edges ++
                  [⟨mech, asset, dir, title, pname, none, none⟩] }) rel
          else
            let r := match_causal_pattern tl asset
            let final := if dir ≠ "neutral" then dir else r.2
            { rel with event_edges := rel.event_edges ++
                [⟨pe, asset, "asset", final, title, r.1, none, none⟩] }) rel

/-- The extraction loop of `multi_event_kg_1.py`: it has **no** validity guard,
so `title.lower()` on a missing / non-string entry (modelled `none`) raises an
`AttributeError`, modelled as `Except.error ()`. -/
def extract_multi_event_relations (titles : List (Option String)) :
    Except Unit V2.Relations :=
  titles.foldlM (fun rel t =>
    match t with
    | none => Except.error ()
    | some s => Except.ok (processTitle rel s)) V2.emptyRelations

end KG1

/-! ## The relaxed engine (`multi_event_kg_v3.py`)

Its keyword tables come from a YAML configuration loaded by
`kg_config_loader.py`; the YAML file itself is not part of the sources, so the
v3 embedding is parameterised by a configuration record holding the tables the
code reads (asset keywords, event keyword lists, and the five movement buckets
its functions access).  The extraction logic itself is translated from
`multi_event_kg_v3.py`; the `extraction_stats` counters, which no claim
concerns, are not carried. -/

/-- Python `str.upper()` (ASCII). -/
def pyUpper (s : String) : String := String.mk (s.data.map Char.toUpper)

/-- All ordered pairs `(l[i], l[j])` with `i < j` — the
`for i, x in enumerate(l): for y in l[i+1:]` idiom. -/
def pairsOf {α : Type} : List α → List (α × α)
  | [] => []
  | x :: xs => (xs.map fun y => (x, y)) ++ pairsOf xs

namespace V3

/-- The configuration tables read by the v3 code. -/
structure Config where
  assetKeywords : List (String × List String)
  rateCutKeywords : List String
  rateHikeKeywords : List String
  employmentKeywords : List String
  movStrongPositive : List String
  movPositive : List String
  movStrongNegative : List String
  movNegative : List String
  movNeutral : List String
deriving DecidableEq, Repr

def detect_event_type (cfg : Config) (text : String) : V2.EventFlags :=
  let tl := pyLower text
  { rate_cut := cfg.rateCutKeywords.any fun k => strContains tl k
    rate_hike := cfg.rateHikeKeywords.any fun k => strContains tl k
    employment := cfg.employmentKeywords.any fun k => strContains tl k }

def detect_assets (cfg : Config) (text : String) : List String :=
  let tl := pyLower text
  cfg.assetKeywords.filterMap fun a =>
    if a.2.any (fun kw => searchKw kw true tl) then some a.1 else none

/-- The five buckets v3 scans, in its order (no weak buckets). -/
def movementBuckets (cfg : Config) : List (String × List String) := [
  ("strong_positive", cfg.movStrongPositive),
  ("positive", cfg.movPositive),
  ("strong_negative", cfg.movStrongNegative),
  ("negative", cfg.movNegative),
  ("neutral", cfg.movNeutral)]

def get_all_movement_positions (cfg : Config) (text : String) : List MovePos :=
  movementPositions (movementBuckets cfg) text

def get_asset_positions (cfg : Config) (text : String) : List (String × List (ℕ × ℕ)) :=
  assetPositions cfg.assetKeywords text

def extract_asset_movement_by_proximity (cfg : Config) (text : String) :
    List (String × String) :=
  proximityMovements cfg.assetKeywords (movementBuckets cfg) text

def anyIndicator (inds : List String) (tl : String) : Bool :=
  inds.any fun i => searchKw i false tl

/-- v3's clause direction: strong-negative, negative, strong-positive, positive,
neutral — no weak buckets. -/
def infer_direction_from_clause (cfg : Config) (clause : String) : String :=
  let cl := pyLower clause
  if anyIndicator cfg.movStrongNegative cl then "negative"
  else if anyIndicator cfg.movNegative cl then "negative"
  else if anyIndicator cfg.movStrongPositive cl then "positive"
  else if anyIndicator cfg.movPositive cl then "positive"
  else if anyIndicator cfg.movNeutral cl then "neutral"
  else "neutral"

/-- The clause-splitting separators of v3, in source order. -/
def SPLIT_PATTERNS : List SepPat := [
  .ws "while", .ws "as", .ws "whereas", .ws "but", .ws "yet", .semi, .commaAnd]

/-- v3's `extract_asset_movement_pairs`; unlike v2, the per-clause asset scan
iterates over the already-detected `all_assets` rather than the full table. -/
def extract_asset_movement_pairs (cfg : Config) (text : String) :
    List (String × String) :=
  let tl := pyLower text
  let all_assets := detect_assets cfg tl
  let clauses := clausesOf SPLIT_PATTERNS tl
  let step := fun (st : List (String × String) × List String) (clause : String) =>
    let clause_assets := all_assets.filter fun a =>
      ((alistGet cfg.assetKeywords a).getD []).any fun kw => searchKw kw true clause
    let clause_direction := infer_direction_from_clause cfg clause
    clause_assets.foldl (fun (st : List (String × String) × List String) asset =>
      if alGet st.1 asset = none || clause_direction ≠ "neutral" then
        (alSet st.1 asset clause_direction, addUnique st.2 asset)
      else st) st
  let phase1 := clauses.foldl step ([], [])
  let asset_movements := phase1.1
  let assets_with_directions := phase1.2
  let remaining := all_assets.filter fun a => ¬ assets_with_directions.contains a
  let asset_movements :=
    if ¬ remaining.isEmpty || clauses.length = 1 then
      (extract_asset_movement_by_proximity cfg text).foldl (fun m ad =>
        if alGet m ad.1 = none || alGet m ad.1 = some "neutral" then alSet m ad.1 ad.2
        else m) asset_movements
    else asset_movements
  all_assets.foldl (fun m a => if alGet m a = none then alSet m a "neutral" else m)
    asset_movements

/-- v3's explicit-VIX test checks the positive buckets only. -/
def vix_explicit (cfg : Config) (tl : String) : Bool :=
  (cfg.movPositive ++ cfg.movStrongPositive).any
    fun i => strContains tl "vix" && strContains tl i

/-- v3's relaxed `infer_direction_with_context`: the base direction (defaulting
to neutral), with only the VIX inversion applied, and never to a neutral
direction. -/
def infer_direction_with_context (cfg : Config) (text : String) (_eventTy : String)
    (assetTy : String) (baseDirection : Option String) : String :=
  let direction := baseDirection.getD "neutral"
  if assetTy == "vix" then
    if ¬ vix_explicit cfg (pyLower text) && direction ≠ "neutral" then
      if direction == "positive" then "negative"
      else if direction == "negative" then "positive"
      else direction
    else direction
  else direction

/-- One evidence record `{title, date, url}` of a raw / aggregated v3 edge. -/
structure V3Evid where
  title : String
  date : Option String
  url : Option String
deriving DecidableEq, Repr

structure RawEdge where
  source : String
  sourceTy : String
  target : String
  targetTy : String
  relation : String
  evidence : V3Evid
deriving DecidableEq, Repr

/-- The asset→asset relation classification of the relaxed relation builder. -/
def asset_asset_relation (dir1 dir2 : String) : String :=
  if dir1 == dir2 then "POSITIVE_CORRELATION"
  else if dir1 ≠ "neutral" && dir2 ≠ "neutral" && dir1 ≠ dir2 then "NEGATIVE_CORRELATION"
  else "CO_OCCURRENCE"

/-- The asset→asset edge block for one headline. -/
def asset_asset_edges (assets : List String) (movements : List (String × String))
    (ev : V3Evid) : List RawEdge :=
  (pairsOf assets).map fun p =>
    let dir1 := (alGet movements p.1).getD "neutral"
    let dir2 := (alGet movements p.2).getD "neutral"
    ⟨"asset:" ++ p.1, "asset", "asset:" ++ p.2, "asset",
     asset_asset_relation dir1 dir2, ev⟩

structure V3Relations where
  events : List String
  assets : List String
  raw_edges : List RawEdge
deriving DecidableEq, Repr

/-- The relaxed loop body for one valid headline. -/
def processTitle (cfg : Config) (rel : V3Relations) (title : String) : V3Relations :=
  let tl := pyLower title
  let ev := detect_event_type cfg tl
  let detected_events :=
    (if ev.employment then ["employment"] else []) ++
    (if ev.rate_cut then ["rate_cut"] else []) ++
    (if ev.rate_hike then ["rate_hike"] else [])
  let has_events := ¬ detected_events.isEmpty
  let assets := detect_assets cfg tl
  let has_assets := ¬ assets.isEmpty
  if ¬ has_events && ¬ has_assets then rel
  else
    let rel := { rel with
      events := if has_events then updUnique rel.events detected_events else rel.events
      assets := if has_assets then updUnique rel.assets assets else rel.assets }
    let movements := extract_asset_movement_pairs cfg title
    let evd : V3Evid := ⟨title, none, none⟩
    let ee :=
      if detected_events.length > 1 then
        (pairsOf detected_events).map fun p =>
          (⟨"event:" ++ p.1, "event", "event:" ++ p.2, "event", "CO_OCCURRENCE", evd⟩ : RawEdge)
      else []
    let ea :=
      if has_events && has_assets then
        detected_events.flatMap fun event =>
          assets.map fun asset =>
            let base := (alGet movements asset).getD "neutral"
            let dir := infer_direction_with_context cfg tl event asset (some base)
            (⟨"event:" ++ event, "event", "asset:" ++ asset, "asset",
              pyUpper dir ++ "_IMPACT", evd⟩ : RawEdge)
      else []
    let aa := if assets.length > 1 then asset_asset_edges assets movements evd else []
    { rel with raw_edges := rel.raw_edges ++ ee ++ ea ++ aa }

/-- `extract_multi_event_relations_relaxed` (minus run statistics); the validity
guard skips `none` and empty entries. -/
def extract_relaxed (cfg : Config) (titles : List (Option String)) : V3Relations :=
  titles.foldl (fun rel t =>
    match t with
    | none => rel
    | some s => if s.isEmpty then rel else processTitle cfg rel s) ⟨[], [], []⟩

/-- One aggregated v3 edge. -/
structure AggEdge where
  source : String
  sourceTy : String
  target : String
  targetTy : String
  relation : String
  evidence_count : ℕ
  evidence_list : List V3Evid
deriving DecidableEq, Repr

abbrev V3Key := String × String × String

def rKey (e : RawEdge) : V3Key := (e.source, e.target, e.relation)

/-- Fold one raw edge into the aggregation map: the identifying fields are set by
the first edge of the key, the evidence list grows with every edge. -/
def aggUpd : List (V3Key × AggEdge) → RawEdge → List (V3Key × AggEdge)
  | [], e => [(rKey e, ⟨e.source, e.sourceTy, e.target, e.targetTy, e.relation, 0, [e.evidence]⟩)]
  | (k, g) :: rest, e =>
    if k = rKey e then (k, { g with evidence_list := g.evidence_list ++ [e.evidence] }) :: rest
    else (k, g) :: aggUpd rest e

/-- Stable sort by evidence count, descending (Python `list.sort(reverse=True)`). -/
def insertCntDesc (x : AggEdge) : List AggEdge → List AggEdge
  | [] => [x]
  | y :: ys =>
    if y.evidence_count ≤ x.evidence_count then x :: y :: ys else y :: insertCntDesc x ys

def sortCntDesc (l : List AggEdge) : List AggEdge := l.foldr insertCntDesc []

/-- `aggregate_edges`: merge raw edges sharing `(source, target, relation)`, set
`evidence_count = len(evidence_list)`, and sort by evidence count descending. -/
def aggregate_edges (raw : List RawEdge) : List AggEdge :=
  let grouped := (raw.foldl aggUpd []).map fun kg =>
    { kg.2 with evidence_count := kg.2.evidence_list.length }
  sortCntDesc grouped

end V3

/-- Modelled from the spec: the v3 engine reads its lexicon tables (asset
aliases, event keywords, movement-indicator buckets) from an external YAML
configuration absent from `src/`; the spec describes them as externally
supplied, immutable tables mirroring the shipped lexicons, so this
representative configuration instantiates them with the v2 tables. -/
def specConfig : V3.Config :=
  { assetKeywords := V2.ASSET_KEYWORDS
    rateCutKeywords := V2.RATE_CUT_KEYWORDS
    rateHikeKeywords := V2.RATE_HIKE_KEYWORDS
    employmentKeywords := V2.EMPLOYMENT_KEYWORDS
    movStrongPositive := V2.MOVEMENT_strong_positive
    movPositive := V2.MOVEMENT_positive
    movStrongNegative := V2.MOVEMENT_strong_negative
    movNegative := V2.MOVEMENT_negative
    movNeutral := V2.MOVEMENT_neutral }

/-! ## Lemmas: characterising the v2 edge aggregation -/

namespace V2

/-- The candidate edges mapping to a key, in processing order. -/
def keyEdges (k : EEKey) (es : List EventEdge) : List EventEdge :=
  es.filter fun e => eKey e = k

/-- One-step extension of a group by a contributing edge. -/
def gStep (g : EGroup) (e : EventEdge) : EGroup :=
  ⟨e.targetTy, e.direction, g.evidence ++ [evidOf e], bumpPattern g.patterns e.pattern⟩

/-- Folding a batch of contributing edges into a group. -/
def gExtend (g : EGroup) (es : List EventEdge) : EGroup := es.foldl gStep g

/-- The group a key starts from in the `defaultdict`. -/
def emptyEGroup : EGroup := ⟨"", "", [], []⟩

theorem alistGet_egUpd (acc : List (EEKey × EGroup)) (e : EventEdge) (k : EEKey) :
    alistGet (egUpd acc e) k =
      if k = eKey e then some (gStep ((alistGet acc k).getD emptyEGroup) e)
      else alistGet acc k := by
  induction acc with
  | nil =>
    by_cases h : k = eKey e
    · subst h
      simp [egUpd, alistGet, gStep, emptyEGroup, bumpPattern]
    · simp [egUpd, alistGet, h, Ne.symm h]
  | cons hd tl ih =>
    obtain ⟨k', g'⟩ := hd
    by_cases h1 : k' = eKey e
    · by_cases h2 : k = eKey e
      · have hk : k' = k := h1.trans h2.symm
        simp [egUpd, alistGet, h1, h2, hk, gStep]
      · have hk : ¬ (k' = k) := fun hh => h2 (hh ▸ h1)
        simp [egUpd, alistGet, h1, h2, hk, Ne.symm h2]
    · by_cases h2 : k' = k
      · have hke : ¬ (k = eKey e) := fun hh => h1 (h2.trans hh)
        simp [egUpd, alistGet, h1, h2, hke]
      · simp [egUpd, alistGet, h1, h2, ih]

theorem gExtend_cons (g : EGroup) (e : EventEdge) (es : List EventEdge) :
    gExtend g (e :: es) = gExtend (gStep g e) es := rfl

theorem alistGet_foldl_egUpd (es : List EventEdge) :
    ∀ (acc : List (EEKey × EGroup)) (k : EEKey),
      alistGet (es.foldl egUpd acc) k =
        match alistGet acc k with
        | some g => some (gExtend g (keyEdges k es))
        | none =>
          if keyEdges k es = [] then none
          else some (gExtend emptyEGroup (keyEdges k es)) := by
  induction es with
  | nil =>
    intro acc k
    cases h : alistGet acc k <;> simp [keyEdges, gExtend, h]
  | cons e es ih =>
    intro acc k
    rw [List.foldl_cons, ih, alistGet_egUpd]
    by_cases hk : k = eKey e
    · subst hk
      have hfilter : keyEdges (eKey e) (e :: es) = e :: keyEdges (eKey e) es := by
        simp [keyEdges, List.filter_cons]
      cases h : alistGet acc (eKey e) <;>
        simp [h, hfilter, gExtend_cons]
    · have hne : ¬ (eKey e = k) := fun h => hk h.symm
      have hfilter : keyEdges k (e :: es) = keyEdges k es := by
        simp [keyEdges, List.filter_cons, hne]
      cases h : alistGet acc k <;> simp [hk, h, hfilter]

theorem event_edge_groups_lookup (es : List EventEdge) (k : EEKey) :
    alistGet (event_edge_groups es) k =
      if keyEdges k es = [] then none
      else some (gExtend emptyEGroup (keyEdges k es)) := by
  have h := alistGet_foldl_egUpd es [] k
  simpa [event_edge_groups, alistGet] using h

theorem gExtend_evidence (es : List EventEdge) :
    ∀ g : EGroup, (gExtend g es).evidence = g.evidence ++ es.map evidOf := by
  induction es with
  | nil => intro g; simp [gExtend]
  | cons e es ih => intro g; simp [gExtend_cons, ih, gStep]

theorem gExtend_polarity (es : List EventEdge) :
    ∀ g : EGroup, (gExtend g es).polarity =
      ((es.getLast?).map EventEdge.direction).getD g.polarity := by
  induction es with
  | nil => intro g; simp [gExtend]
  | cons e es ih =>
    intro g
    rw [gExtend_cons, ih]
    cases es with
    | nil => simp [gStep]
    | cons x xs =>
      rw [List.getLast?_cons_cons]
      cases h : (x :: xs).getLast? with
      | none => simp [List.getLast?_eq_none_iff] at h
      | some l => simp [h]

/-! Key uniqueness of the grouping maps, and entry membership vs lookup. -/

theorem keys_egUpd (gs : List (EEKey × EGroup)) (e : EventEdge) :
    (egUpd gs e).map Prod.fst =
      if eKey e ∈ gs.map Prod.fst then gs.map Prod.fst
      else gs.map Prod.fst ++ [eKey e] := by
  induction gs with
  | nil => simp [egUpd]
  | cons hd tl ih =>
    obtain ⟨k', g'⟩ := hd
    by_cases h : k' = eKey e
    · simp [egUpd, h]
    · have hne : ¬ (eKey e = k') := fun hh => h hh.symm
      simp only [egUpd, if_neg h, List.map_cons, ih]
      by_cases hm : eKey e ∈ tl.map Prod.fst
      · simp [hm, hne]
      · simp [hm, hne]

theorem keys_nodup_egUpd (gs : List (EEKey × EGroup)) (e : EventEdge)
    (h : (gs.map Prod.fst).Nodup) : ((egUpd gs e).map Prod.fst).Nodup := by
  rw [keys_egUpd]
  split
  · exact h
  · next hne => simp [List.nodup_append, h, hne]

theorem keys_nodup_event_edge_groups (es : List EventEdge) :
    ((event_edge_groups es).map Prod.fst).Nodup := by
  suffices h : ∀ acc : List (EEKey × EGroup), (acc.map Prod.fst).Nodup →
      ((es.foldl egUpd acc).map Prod.fst).Nodup by
    exact h [] (by simp)
  induction es with
  | nil => intro acc hacc; simpa using hacc
  | cons e es ih =>
    intro acc hacc
    exact ih (egUpd acc e) (keys_nodup_egUpd acc e hacc)

theorem alistGet_of_mem {κ β : Type} [DecidableEq κ] (gs : List (κ × β)) (k : κ) (g : β)
    (hnd : (gs.map Prod.fst).Nodup) (hmem : (k, g) ∈ gs) : alistGet gs k = some g := by
  induction gs with
  | nil => simp at hmem
  | cons hd tl ih =>
    obtain ⟨k', g'⟩ := hd
    rw [List.map_cons, List.nodup_cons] at hnd
    rcases List.mem_cons.mp hmem with heq | hmem'
    · injection heq with h1 h2
      subst h1
      subst h2
      simp [alistGet]
    · have hk : ¬ (k' = k) := by
        intro hh
        subst hh
        exact hnd.1 (List.mem_map.mpr ⟨(k', g), hmem', rfl⟩)
      simp only [alistGet, if_neg hk]
      exact ih hnd.2 hmem' 

/-! The same characterisation for the mechanism-edge groups. -/

def mkeyEdges (k : MKey) (es : List MechEdge) : List MechEdge :=
  es.filter fun e => mKey e = k

def mStep (g : MGroup) (e : MechEdge) : MGroup :=
  ⟨e.direction, g.evidence ++ [mEvidOf e], bumpPattern g.patterns e.pattern⟩

def mExtend (g : MGroup) (es : List MechEdge) : MGroup := es.foldl mStep g

def emptyMGroup : MGroup := ⟨"", [], []⟩

theorem alistGet_mgUpd (acc : List (MKey × MGroup)) (e : MechEdge) (k : MKey) :
    alistGet (mgUpd acc e) k =
      if k = mKey e then some (mStep ((alistGet acc k).getD emptyMGroup) e)
      else alistGet acc k := by
  induction acc with
  | nil =>
    by_cases h : k = mKey e
    · subst h
      simp [mgUpd, alistGet, mStep, emptyMGroup, bumpPattern]
    · simp [mgUpd, alistGet, h, Ne.symm h]
  | cons hd tl ih =>
    obtain ⟨k', g'⟩ := hd
    by_cases h1 : k' = mKey e
    · by_cases h2 : k = mKey e
      · have hk : k' = k := h1.trans h2.symm
        simp [mgUpd, alistGet, h1, h2, hk, mStep]
      · have hk : ¬ (k' = k) := fun hh => h2 (hh ▸ h1)
        simp [mgUpd, alistGet, h1, h2, hk, Ne.symm h2]
    · by_cases h2 : k' = k
      · have hke : ¬ (k = mKey e) := fun hh => h1 (h2.trans hh)
        simp [mgUpd, alistGet, h1, h2, hke]
      · simp [mgUpd, alistGet, h1, h2, ih]

theorem mExtend_cons (g : MGroup) (e : MechEdge) (es : List MechEdge) :
    mExtend g (e :: es) = mExtend (mStep g e) es := rfl

theorem alistGet_foldl_mgUpd (es : List MechEdge) :
    ∀ (acc : List (MKey × MGroup)) (k : MKey),
      alistGet (es.foldl mgUpd acc) k =
        match alistGet acc k with
        | some g => some (mExtend g (mkeyEdges k es))
        | none =>
          if mkeyEdges k es = [] then none
          else some (mExtend emptyMGroup (mkeyEdges k es)) := by
  induction es with
  | nil =>
    intro acc k
    cases h : alistGet acc k <;> simp [mkeyEdges, mExtend, h]
  | cons e es ih =>
    intro acc k
    rw [List.foldl_cons, ih, alistGet_mgUpd]
    by_cases hk : k = mKey e
    · subst hk
      have hfilter : mkeyEdges (mKey e) (e :: es) = e :: mkeyEdges (mKey e) es := by
        simp [mkeyEdges, List.filter_cons]
      cases h : alistGet acc (mKey e) <;>
        simp [h, hfilter, mExtend_cons]
    · have hne : ¬ (mKey e = k) := fun h => hk h.symm
      have hfilter : mkeyEdges k (e :: es) = mkeyEdges k es := by
        simp [mkeyEdges, List.filter_cons, hne]
      cases h : alistGet acc k <;> simp [hk, h, hfilter]

theorem mech_edge_groups_lookup (es : List MechEdge) (k : MKey) :
    alistGet (mech_edge_groups es) k =
      if mkeyEdges k es = [] then none
      else some (mExtend emptyMGroup (mkeyEdges k es)) := by
  have h := alistGet_foldl_mgUpd es [] k
  simpa [mech_edge_groups, alistGet] using h

theorem mExtend_evidence (es : List MechEdge) :
    ∀ g : MGroup, (mExtend g es).evidence = g.evidence ++ es.map mEvidOf := by
  induction es with
  | nil => intro g; simp [mExtend]
  | cons e es ih => intro g; simp [mExtend_cons, ih, mStep]

theorem mExtend_polarity (es : List MechEdge) :
    ∀ g : MGroup, (mExtend g es).polarity =
      ((es.getLast?).map MechEdge.direction).getD g.polarity := by
  induction es with
  | nil => intro g; simp [mExtend]
  | cons e es ih =>
    intro g
    rw [mExtend_cons, ih]
    cases es with
    | nil => simp [mStep]
    | cons x xs =>
      rw [List.getLast?_cons_cons]
      cases h : (x :: xs).getLast? with
      | none => simp [List.getLast?_eq_none_iff] at h
      | some l => simp [h]

theorem keys_mgUpd (gs : List (MKey × MGroup)) (e : MechEdge) :
    (mgUpd gs e).map Prod.fst =
      if mKey e ∈ gs.map Prod.fst then gs.map Prod.fst
      else gs.map Prod.fst ++ [mKey e] := by
  induction gs with
  | nil => simp [mgUpd]
  | cons hd tl ih =>
    obtain ⟨k', g'⟩ := hd
    by_cases h : k' = mKey e
    · simp [mgUpd, h]
    · have hne : ¬ (mKey e = k') := fun hh => h hh.symm
      simp only [mgUpd, if_neg h, List.map_cons, ih]
      by_cases hm : mKey e ∈ tl.map Prod.fst
      · simp [hm, hne]
      · simp [hm, hne]

theorem keys_nodup_mech_edge_groups (es : List MechEdge) :
    ((mech_edge_groups es).map Prod.fst).Nodup := by
  suffices h : ∀ acc : List (MKey × MGroup), (acc.map Prod.fst).Nodup →
      ((es.foldl mgUpd acc).map Prod.fst).Nodup by
    exact h [] (by simp)
  induction es with
  | nil => intro acc hacc; simpa using hacc
  | cons e es ih =>
    intro acc hacc
    refine ih (mgUpd acc e) ?_
    rw [keys_mgUpd]
    split
    · exact hacc
    · next hne => simp [List.nodup_append, hacc, hne]

end V2

/-! ## Lemmas: characterising the v3 `aggregate_edges` -/

namespace V3

/-- The raw edges mapping to a key, in processing order. -/
def rkeyEdges (k : V3Key) (raw : List RawEdge) : List RawEdge :=
  raw.filter fun e => rKey e = k

/-- One-step extension of an aggregation entry (evidence append). -/
def aStep (g : AggEdge) (e : RawEdge) : AggEdge :=
  { g with evidence_list := g.evidence_list ++ [e.evidence] }

/-- The entry created by the first raw edge of a key. -/
def aInit (e : RawEdge) : AggEdge :=
  ⟨e.source, e.sourceTy, e.target, e.targetTy, e.relation, 0, [e.evidence]⟩

def aExtend (g : AggEdge) (es : List RawEdge) : AggEdge := es.foldl aStep g

theorem alistGet_aggUpd (acc : List (V3Key × AggEdge)) (e : RawEdge) (k : V3Key) :
    alistGet (aggUpd acc e) k =
      if k = rKey e then
        some (match alistGet acc k with
              | some g => aStep g e
              | none => aInit e)
      else alistGet acc k := by
  induction acc with
  | nil =>
    by_cases h : k = rKey e
    · subst h
      simp [aggUpd, alistGet, aInit]
    · simp [aggUpd, alistGet, h, Ne.symm h]
  | cons hd tl ih =>
    obtain ⟨k', g'⟩ := hd
    by_cases h1 : k' = rKey e
    · by_cases h2 : k = rKey e
      · have hk : k' = k := h1.trans h2.symm
        simp [aggUpd, alistGet, h1, h2, hk, aStep]
      · have hk : ¬ (k' = k) := fun hh => h2 (hh ▸ h1)
        simp [aggUpd, alistGet, h1, h2, hk, Ne.symm h2]
    · by_cases h2 : k' = k
      · have hke : ¬ (k = rKey e) := fun hh => h1 (h2.trans hh)
        simp [aggUpd, alistGet, h1, h2, hke]
      · simp [aggUpd, alistGet, h1, h2, ih]

theorem aExtend_cons (g : AggEdge) (e : RawEdge) (es : List RawEdge) :
    aExtend g (e :: es) = aExtend (aStep g e) es := rfl

theorem alistGet_foldl_aggUpd (raw : List RawEdge) :
    ∀ (acc : List (V3Key × AggEdge)) (k : V3Key),
      alistGet (raw.foldl aggUpd acc) k =
        match alistGet acc k with
        | some g => some (aExtend g (rkeyEdges k raw))
        | none =>
          match rkeyEdges k raw with
          | [] => none
          | e :: rest => some (aExtend (aInit e) rest) := by
  induction raw with
  | nil =>
    intro acc k
    cases h : alistGet acc k <;> simp [rkeyEdges, aExtend, h]
  | cons e es ih =>
    intro acc k
    rw [List.foldl_cons, ih, alistGet_aggUpd]
    by_cases hk : k = rKey e
    · subst hk
      have hfilter : rkeyEdges (rKey e) (e :: es) = e :: rkeyEdges (rKey e) es := by
        simp [rkeyEdges, List.filter_cons]
      cases h : alistGet acc (rKey e) <;>
        simp [h, hfilter, aExtend_cons]
    · have hne : ¬ (rKey e = k) := fun h => hk h.symm
      have hfilter : rkeyEdges k (e :: es) = rkeyEdges k es := by
        simp [rkeyEdges, List.filter_cons, hne]
      cases h : alistGet acc k <;> simp [hk, h, hfilter]

theorem aExtend_evidence (es : List RawEdge) :
    ∀ g : AggEdge, (aExtend g es).evidence_list =
      g.evidence_list ++ es.map RawEdge.evidence := by
  induction es with
  | nil => intro g; simp [aExtend]
  | cons e es ih => intro g; simp [aExtend_cons, ih, aStep]

theorem aExtend_fields (es : List RawEdge) :
    ∀ g : AggEdge, (aExtend g es).source = g.source ∧ (aExtend g es).target = g.target ∧
      (aExtend g es).relation = g.relation ∧ (aExtend g es).evidence_count = g.evidence_count := by
  induction es with
  | nil => intro g; simp [aExtend]
  | cons e es ih => intro g; simpa [aExtend_cons, aStep] using ih (aStep g e)

theorem keys_aggUpd (gs : List (V3Key × AggEdge)) (e : RawEdge) :
    (aggUpd gs e).map Prod.fst =
      if rKey e ∈ gs.map Prod.fst then gs.map Prod.fst
      else gs.map Prod.fst ++ [rKey e] := by
  induction gs with
  | nil => simp [aggUpd]
  | cons hd tl ih =>
    obtain ⟨k', g'⟩ := hd
    by_cases h : k' = rKey e
    · simp [aggUpd, h]
    · have hne : ¬ (rKey e = k') := fun hh => h hh.symm
      simp only [aggUpd, if_neg h, List.map_cons, ih]
      by_cases hm : rKey e ∈ tl.map Prod.fst
      · simp [hm, hne]
      · simp [hm, hne]

theorem keys_nodup_agg (raw : List RawEdge) :
    (((raw.foldl aggUpd []) : List (V3Key × AggEdge)).map Prod.fst).Nodup := by
  suffices h : ∀ acc : List (V3Key × AggEdge), (acc.map Prod.fst).Nodup →
      ((raw.foldl aggUpd acc).map Prod.fst).Nodup by
    exact h [] (by simp)
  induction raw with
  | nil => intro acc hacc; simpa using hacc
  | cons e es ih =>
    intro acc hacc
    refine ih (aggUpd acc e) ?_
    rw [keys_aggUpd]
    split
    · exact hacc
    · next hne => simp [List.nodup_append, hacc, hne]

theorem mem_insertCntDesc (x a : AggEdge) (l : List AggEdge) :
    a ∈ insertCntDesc x l ↔ a = x ∨ a ∈ l := by
  induction l with
  | nil => simp [insertCntDesc]
  | cons y ys ih =>
    by_cases h : y.evidence_count ≤ x.evidence_count
    · simp [insertCntDesc, if_pos h, List.mem_cons]
    · simp only [insertCntDesc, if_neg h, List.mem_cons, ih]
      tauto

theorem aggregate_edges_eq (raw : List RawEdge) :
    aggregate_edges raw =
      sortCntDesc ((raw.foldl aggUpd []).map fun kg =>
        { kg.2 with evidence_count := kg.2.evidence_list.length }) := rfl

theorem mem_sortCntDesc (a : AggEdge) (l : List AggEdge) :
    a ∈ sortCntDesc l ↔ a ∈ l := by
  induction l with
  | nil => simp [sortCntDesc]
  | cons y ys ih =>
    simp [sortCntDesc, List.foldr_cons, mem_insertCntDesc, List.mem_cons]
    rw [show List.foldr insertCntDesc [] ys = sortCntDesc ys from rfl] at *
    tauto

end V3

/-! ## The claims -/

set_option maxHeartbeats 20000000 in
/-- C1 (counterexample): on the single headline
`"dollar and gold gain ahead of jobs report"` the v2 engine emits one
event→mechanism candidate edge per detected asset, so the exported aggregated
edge `(event:employment → mech:ahead_of_jobs_report)` has `evidence_count = 2`
while only 1 distinct headline contributed — refuting the claim that
`evidence_count` always equals the number of distinct contributing headlines
and that one headline can contribute at most one unit. -/
theorem c1_counterexample :
    V2.build_event_edges (V2.extract_multi_event_relations
        [some "dollar and gold gain ahead of jobs report"]).event_edges =
      [⟨"event:employment", "mech:ahead_of_jobs_report", "TRIGGERS", "positive", 2,
        "asset_direction_ahead",
        [⟨"dollar and gold gain ahead of jobs report", none, none, "asset_direction_ahead"⟩,
         ⟨"dollar and gold gain ahead of jobs report", none, none, "asset_direction_ahead"⟩]⟩] ∧
    (([⟨"dollar and gold gain ahead of jobs report", none, none, "asset_direction_ahead"⟩,
       ⟨"dollar and gold gain ahead of jobs report", none, none, "asset_direction_ahead"⟩] :
        List V2.Evid).map V2.Evid.title).dedup = ["dollar and gold gain ahead of jobs report"] := by
  constructor
  · decide
  · decide

/-- C1 (amended): an aggregated edge's `evidence_count` equals the number of
candidate (v2) / raw (v3) edges mapping to its `(source, target, relation)`-key —
not the number of distinct contributing headlines, which can be smaller. -/
theorem c1_amended_evidence_count :
    (∀ (es : List V2.EventEdge) (k : V2.EEKey) (g : V2.EGroup),
        alistGet (V2.event_edge_groups es) k = some g →
        g.evidence.length = (V2.keyEdges k es).length ∧
        (V2.exportEventEdge k g).evidence_count = (V2.keyEdges k es).length) ∧
    (∀ (raw : List V3.RawEdge) (a : V3.AggEdge),
        a ∈ V3.aggregate_edges raw →
        a.evidence_count =
          (V3.rkeyEdges (a.source, a.target, a.relation) raw).length) := by
  constructor
  · intro es k g h
    rw [V2.event_edge_groups_lookup] at h
    split at h
    · exact absurd h (by simp)
    · have hg : g = V2.gExtend V2.emptyEGroup (V2.keyEdges k es) := by
        cases h; rfl
      have hev : g.evidence = (V2.keyEdges k es).map V2.evidOf := by
        rw [hg, V2.gExtend_evidence]
        simp [V2.emptyEGroup]
      constructor
      · rw [hev, List.length_map]
      · show g.evidence.length = _
        rw [hev, List.length_map]
  · intro raw a ha
    rw [V3.aggregate_edges_eq, V3.mem_sortCntDesc] at ha
    obtain ⟨⟨k, g⟩, hmem, rfl⟩ := List.mem_map.mp ha
    have hget : alistGet (raw.foldl V3.aggUpd []) k = some g :=
      V2.alistGet_of_mem _ _ _ (V3.keys_nodup_agg raw) hmem
    rw [V3.alistGet_foldl_aggUpd] at hget
    simp only [alistGet] at hget
    revert hget
    cases hfe : V3.rkeyEdges k raw with
    | nil => intro hget; exact absurd hget (by simp)
    | cons e rest =>
      intro hget
      have hg : g = V3.aExtend (V3.aInit e) rest := by cases hget; rfl
      have hke : V3.rKey e = k := by
        have : e ∈ V3.rkeyEdges k raw := by rw [hfe]; exact List.mem_cons_self e rest
        have := List.of_mem_filter this
        exact of_decide_eq_true this
      have hfields : g.source = e.source ∧ g.target = e.target ∧ g.relation = e.relation := by
        have hf := V3.aExtend_fields rest (V3.aInit e)
        rw [hg]
        exact ⟨hf.1, hf.2.1, hf.2.2.1⟩
      have hkey : (g.source, g.target, g.relation) = k := by
        rw [hfields.1, hfields.2.1, hfields.2.2, ← hke]
        rfl
      have hlen : g.evidence_list.length = (V3.rkeyEdges k raw).length := by
        rw [hg, V3.aExtend_evidence, hfe]
        simp [V3.aInit]
      simp only [hkey]
      simpa using hlen

set_option maxHeartbeats 40000000 in
/-- C2 (counterexample): three headlines give the edge
`(event:employment → asset:gold)` evidence directions
`positive, positive, negative`; the most frequent direction is `positive`
(2 against 1, so no tie-break is involved), yet the recorded polarity of the
exported edge is `negative` — the direction of the most recently processed
evidence — and the relation name is derived from it. -/
theorem c2_counterexample :
    (V2.extract_multi_event_relations
        [some "gold rose on jobs data", some "gold gained on jobs data",
         some "gold fell on jobs data"]).event_edges =
      [⟨"employment", "gold", "asset", "positive", "gold rose on jobs data",
        "asset_movement_on_event", none, none⟩,
       ⟨"employment", "gold", "asset", "positive", "gold gained on jobs data",
        "asset_movement_on_event", none, none⟩,
       ⟨"employment", "gold", "asset", "negative", "gold fell on jobs data",
        "asset_movement_on_event", none, none⟩] ∧
    ([⟨"employment", "gold", "asset", "positive", "gold rose on jobs data",
       "asset_movement_on_event", none, none⟩,
      ⟨"employment", "gold", "asset", "positive", "gold gained on jobs data",
       "asset_movement_on_event", none, none⟩,
      ⟨"employment", "gold", "asset", "negative", "gold fell on jobs data",
       "asset_movement_on_event", none, none⟩] : List V2.EventEdge).countP
        (fun e => e.direction = "positive") = 2 ∧
    ([⟨"employment", "gold", "asset", "positive", "gold rose on jobs data",
       "asset_movement_on_event", none, none⟩,
      ⟨"employment", "gold", "asset", "positive", "gold gained on jobs data",
       "asset_movement_on_event", none, none⟩,
      ⟨"employment", "gold", "asset", "negative", "gold fell on jobs data",
       "asset_movement_on_event", none, none⟩] : List V2.EventEdge).countP
        (fun e => e.direction = "negative") = 1 ∧
    (V2.build_event_edges
      [⟨"employment", "gold", "asset", "positive", "gold rose on jobs data",
        "asset_movement_on_event", none, none⟩,
       ⟨"employment", "gold", "asset", "positive", "gold gained on jobs data",
        "asset_movement_on_event", none, none⟩,
       ⟨"employment", "gold", "asset", "negative", "gold fell on jobs data",
        "asset_movement_on_event", none, none⟩]).map
        (fun ed => (ed.polarity, ed.relation)) = [("negative", "NEGATIVELY_IMPACTS")] := by
  refine ⟨by decide, by decide, by decide, by decide⟩

/-- C2 (amended): the recorded polarity of every aggregated edge (event-edge and
mechanism-edge groups alike) equals the direction of the **last** evidence record
processed for its key — the `polarity` field is overwritten by every
contributing candidate edge — not the most frequent direction. -/
theorem c2_amended_last_direction_polarity :
    (∀ (es : List V2.EventEdge) (k : V2.EEKey) (g : V2.EGroup),
        alistGet (V2.event_edge_groups es) k = some g →
        g.evidence = (V2.keyEdges k es).map V2.evidOf ∧
        ((V2.keyEdges k es).getLast?).map V2.EventEdge.direction = some g.polarity ∧
        (V2.exportEventEdge k g).polarity = g.polarity) ∧
    (∀ (ms : List V2.MechEdge) (k : V2.MKey) (g : V2.MGroup),
        alistGet (V2.mech_edge_groups ms) k = some g →
        g.evidence = (V2.mkeyEdges k ms).map V2.mEvidOf ∧
        ((V2.mkeyEdges k ms).getLast?).map V2.MechEdge.direction = some g.polarity ∧
        (V2.exportMechEdge k g).polarity = g.polarity) := by
  constructor
  · intro es k g h
    rw [V2.event_edge_groups_lookup] at h
    split at h
    · exact absurd h (by simp)
    · next hne =>
      have hg : g = V2.gExtend V2.emptyEGroup (V2.keyEdges k es) := by
        cases h; rfl
      refine ⟨?_, ?_, rfl⟩
      · rw [hg, V2.gExtend_evidence]; simp [V2.emptyEGroup]
      · rw [hg, V2.gExtend_polarity]
        cases hl : (V2.keyEdges k es).getLast? with
        | none => exact absurd (List.getLast?_eq_none_iff.mp hl) hne
        | some l => simp [hl]
  · intro ms k g h
    rw [V2.mech_edge_groups_lookup] at h
    split at h
    · exact absurd h (by simp)
    · next hne =>
      have hg : g = V2.mExtend V2.emptyMGroup (V2.mkeyEdges k ms) := by
        cases h; rfl
      refine ⟨?_, ?_, rfl⟩
      · rw [hg, V2.mExtend_evidence]; simp [V2.emptyMGroup]
      · rw [hg, V2.mExtend_polarity]
        cases hl : (V2.mkeyEdges k ms).getLast? with
        | none => exact absurd (List.getLast?_eq_none_iff.mp hl) hne
        | some l => simp [hl]

/-- C2 (witness): the amended theorem applied to a concrete two-edge input whose
directions differ — the group's polarity is the later direction. -/
theorem c2_amended_witness :
    alistGet (V2.event_edge_groups
      [⟨"employment", "gold", "asset", "positive", "t1", "p", none, none⟩,
       ⟨"employment", "gold", "asset", "negative", "t2", "p", none, none⟩])
      ("employment", "gold", "asset") =
      some ⟨"asset", "negative",
        [⟨"t1", none, none, "p"⟩, ⟨"t2", none, none, "p"⟩], [("p", 2)]⟩ ∧
    ((V2.keyEdges ("employment", "gold", "asset")
      [⟨"employment", "gold", "asset", "positive", "t1", "p", none, none⟩,
       ⟨"employment", "gold", "asset", "negative", "t2", "p", none, none⟩]).getLast?).map
        V2.EventEdge.direction = some "negative" :=
  ⟨by decide,
   (c2_amended_last_direction_polarity.1
      [⟨"employment", "gold", "asset", "positive", "t1", "p", none, none⟩,
       ⟨"employment", "gold", "asset", "negative", "t2", "p", none, none⟩]
      ("employment", "gold", "asset")
      ⟨"asset", "negative",
        [⟨"t1", none, none, "p"⟩, ⟨"t2", none, none, "p"⟩], [("p", 2)]⟩
      (by decide)).2.1⟩

/-- C1 (witness): the amended theorem applied to concrete inputs on both the v2
grouping and the v3 aggregation. -/
theorem c1_amended_witness :
    ((V2.keyEdges ("employment", "gold", "asset")
        [⟨"employment", "gold", "asset", "positive", "t1", "p", none, none⟩]).length = 1 ∧
      (V2.exportEventEdge ("employment", "gold", "asset")
        ⟨"asset", "positive", [⟨"t1", none, none, "p"⟩], [("p", 1)]⟩).evidence_count = 1) ∧
    (V3.aggregate_edges
        [⟨"event:employment", "event", "asset:gold", "asset", "POSITIVE_IMPACT",
          ⟨"t1", none, none⟩⟩]).all
      (fun a => a.evidence_count =
        (V3.rkeyEdges (a.source, a.target, a.relation)
          [⟨"event:employment", "event", "asset:gold", "asset", "POSITIVE_IMPACT",
            ⟨"t1", none, none⟩⟩]).length) = true := by
  constructor
  · have h := (c1_amended_evidence_count.1
      [⟨"employment", "gold", "asset", "positive", "t1", "p", none, none⟩]
      ("employment", "gold", "asset")
      ⟨"asset", "positive", [⟨"t1", none, none, "p"⟩], [("p", 1)]⟩ (by decide))
    exact ⟨by decide, h.2⟩
  · rw [List.all_eq_true]
    intro a ha
    have := c1_amended_evidence_count.2
      [⟨"event:employment", "event", "asset:gold", "asset", "POSITIVE_IMPACT",
        ⟨"t1", none, none⟩⟩] a (by simpa using ha)
    simpa using this

/-- C10: every exported edge carries at most the first 10 evidence records (in
processing order) of its group, while `evidence_count` reports the full number
of contributing candidate edges, so `evidence_count` can exceed the length of
the exported evidence list — shown concretely by 11 identical candidate
edges. -/
theorem c10_evidence_truncation :
    (∀ (es : List V2.EventEdge) (k : V2.EEKey) (g : V2.EGroup),
        alistGet (V2.event_edge_groups es) k = some g →
        (V2.exportEventEdge k g).evidence = ((V2.keyEdges k es).map V2.evidOf).take 10 ∧
        (V2.exportEventEdge k g).evidence_count = (V2.keyEdges k es).length ∧
        (V2.exportEventEdge k g).evidence.length ≤ 10) ∧
    (∀ (ms : List V2.MechEdge) (k : V2.MKey) (g : V2.MGroup),
        alistGet (V2.mech_edge_groups ms) k = some g →
        (V2.exportMechEdge k g).evidence = ((V2.mkeyEdges k ms).map V2.mEvidOf).take 10 ∧
        (V2.exportMechEdge k g).evidence_count = (V2.mkeyEdges k ms).length ∧
        (V2.exportMechEdge k g).evidence.length ≤ 10) ∧
    (V2.build_event_edges (List.replicate 11
        ⟨"employment", "gold", "asset", "positive", "t", "p", none, none⟩)).map
      (fun ed => (ed.evidence_count, ed.evidence.length)) = [(11, 10)] := by
  refine ⟨?_, ?_, by decide⟩
  · intro es k g h
    rw [V2.event_edge_groups_lookup] at h
    split at h
    · exact absurd h (by simp)
    · have hg : g = V2.gExtend V2.emptyEGroup (V2.keyEdges k es) := by
        cases h; rfl
      have hev : g.evidence = (V2.keyEdges k es).map V2.evidOf := by
        rw [hg, V2.gExtend_evidence]; simp [V2.emptyEGroup]
      refine ⟨?_, ?_, ?_⟩
      · show g.evidence.take 10 = _
        rw [hev]
      · show g.evidence.length = _
        rw [hev, List.length_map]
      · show (g.evidence.take 10).length ≤ 10
        simp
  · intro ms k g h
    rw [V2.mech_edge_groups_lookup] at h
    split at h
    · exact absurd h (by simp)
    · have hg : g = V2.mExtend V2.emptyMGroup (V2.mkeyEdges k ms) := by
        cases h; rfl
      have hev : g.evidence = (V2.mkeyEdges k ms).map V2.mEvidOf := by
        rw [hg, V2.mExtend_evidence]; simp [V2.emptyMGroup]
      refine ⟨?_, ?_, ?_⟩
      · show g.evidence.take 10 = _
        rw [hev]
      · show g.evidence.length = _
        rw [hev, List.length_map]
      · show (g.evidence.take 10).length ≤ 10
        simp

/-- C10 (witness): the truncation theorem applied to a concrete single-edge
group. -/
theorem c10_evidence_truncation_witness :
    (V2.exportEventEdge ("employment", "gold", "asset")
      ⟨"asset", "positive", [⟨"t1", none, none, "p"⟩], [("p", 1)]⟩).evidence =
      ((V2.keyEdges ("employment", "gold", "asset")
        [⟨"employment", "gold", "asset", "positive", "t1", "p", none, none⟩]).map
          V2.evidOf).take 10 :=
  (c10_evidence_truncation.1
    [⟨"employment", "gold", "asset", "positive", "t1", "p", none, none⟩]
    ("employment", "gold", "asset")
    ⟨"asset", "positive", [⟨"t1", none, none, "p"⟩], [("p", 1)]⟩ (by decide)).1

/-- C3 (counterexample): the headline
`"rate cut hopes rise after jobs report"` triggers both the `employment` and
the `rate_cut` kinds; the first-generation single-primary-event path selects
`rate_cut`, not `employment`, refuting the claimed fixed priority order
`employment > rate_cut > rate_hike` for that path. -/
theorem c3_counterexample :
    (KG1.detect_event_type (pyLower "rate cut hopes rise after jobs report")).employment
      = true ∧
    (KG1.detect_event_type (pyLower "rate cut hopes rise after jobs report")).rate_cut
      = true ∧
    KG1.kg1_primary_event
        (KG1.detect_event_type (pyLower "rate cut hopes rise after jobs report"))
      = some "rate_cut" := by
  refine ⟨by decide, by decide, by decide⟩

/-- C3 (amended): v2's selection follows the priority order
`employment > rate_cut > rate_hike`; the first-generation module's selection is
last-assignment-wins, i.e. the effective priority order is
`rate_hike > rate_cut > employment`. -/
theorem c3_amended_priority_order :
    ∀ f : V2.EventFlags,
      (f.employment = true → V2.primary_event f = some "employment") ∧
      (f.employment = false → f.rate_cut = true →
        V2.primary_event f = some "rate_cut") ∧
      (f.employment = false → f.rate_cut = false → f.rate_hike = true →
        V2.primary_event f = some "rate_hike") ∧
      (f.rate_hike = true → KG1.kg1_primary_event f = some "rate_hike") ∧
      (f.rate_hike = false → f.rate_cut = true →
        KG1.kg1_primary_event f = some "rate_cut") ∧
      (f.rate_hike = false → f.rate_cut = false → f.employment = true →
        KG1.kg1_primary_event f = some "employment") := by
  intro f
  obtain ⟨rc, rh, em⟩ := f
  cases rc <;> cases rh <;> cases em <;>
    simp [V2.primary_event, KG1.kg1_primary_event]

/-- C3 (witness): the amended theorem applied at the flag combination
`employment ∧ rate_cut` detected. -/
theorem c3_amended_witness :
    V2.primary_event ⟨true, false, true⟩ = some "employment" ∧
    KG1.kg1_primary_event ⟨true, false, true⟩ = some "rate_cut" :=
  ⟨(c3_amended_priority_order ⟨true, false, true⟩).1 rfl,
   (c3_amended_priority_order ⟨true, false, true⟩).2.2.2.2.1 rfl rfl⟩

/-! ## Lemmas for C4: totality and range of the direction resolver -/

/-- The three legal direction strings. -/
def dirOkStr (d : String) : Prop := d = "positive" ∨ d = "negative" ∨ d = "neutral"

/-- All values of an asset-movement map are legal directions. -/
def DirOk (m : List (String × String)) : Prop :=
  ∀ a d, alGet m a = some d → dirOkStr d

theorem alGet_alSet (m : List (String × String)) (k v k' : String) :
    alGet (alSet m k v) k' = if k = k' then some v else alGet m k' := by
  induction m with
  | nil =>
    by_cases h : k = k' <;> simp [alSet, alGet, h]
  | cons hd tl ih =>
    obtain ⟨k0, v0⟩ := hd
    by_cases h0 : k0 = k
    · subst h0
      by_cases h1 : k0 = k'
      · simp [alSet, alGet, h1]
      · simp [alSet, alGet, h1]
    · by_cases h1 : k0 = k'
      · have hkk : ¬ (k = k') := fun hh => h0 (h1.trans hh.symm)
        have hkk2 : ¬ (k' = k) := fun hh => h0 (h1.trans hh)
        simp [alSet, alGet, h0, h1, hkk, hkk2]
      · simp [alSet, alGet, h0, h1, ih]

theorem DirOk_alSet {m : List (String × String)} {k v : String}
    (hm : DirOk m) (hv : dirOkStr v) : DirOk (alSet m k v) := by
  intro a d h
  rw [alGet_alSet] at h
  split at h
  · cases h; exact hv
  · exact hm a d h

theorem DirOk_nil : DirOk [] := by intro a d h; simp [alGet] at h

/-- Invariant preservation through a left fold whose elements all satisfy `R`. -/
theorem foldl_inv_mem {α β : Type} (P : β → Prop) (R : α → Prop) (f : β → α → β)
    (l : List α) (hl : ∀ a ∈ l, R a)
    (hf : ∀ b a, R a → P b → P (f b a)) : ∀ b, P b → P (l.foldl f b) := by
  induction l with
  | nil => intro b hb; simpa using hb
  | cons x xs ih =>
    intro b hb
    rw [List.foldl_cons]
    exact ih (fun a ha => hl a (List.mem_cons_of_mem x ha)) (f b x)
      (hf b x (hl x (List.mem_cons_self x xs)) hb)

theorem normalizeDir_dirOk (b : String) : dirOkStr (normalizeDir b) := by
  unfold normalizeDir dirOkStr
  split
  · left; rfl
  · split
    · right; left; rfl
    · right; right; rfl

theorem mem_dropOverlaps {mv : MovePos} :
    ∀ (l : List MovePos) (n : ℕ), mv ∈ dropOverlaps l n → mv ∈ l := by
  intro l
  induction l with
  | nil => intro n h; simpa [dropOverlaps] using h
  | cons x xs ih =>
    intro n h
    rw [dropOverlaps] at h
    split at h
    · rcases List.mem_cons.mp h with h1 | h1
      · exact h1 ▸ List.mem_cons_self x xs
      · exact List.mem_cons_of_mem x (ih _ h1)
    · exact List.mem_cons_of_mem x (ih _ h)

theorem mem_insertMovePos {mv x : MovePos} :
    ∀ l : List MovePos, mv ∈ insertMovePos x l → mv = x ∨ mv ∈ l := by
  intro l
  induction l with
  | nil => intro h; simpa [insertMovePos] using h
  | cons y ys ih =>
    intro h
    rw [insertMovePos] at h
    split at h
    · rcases List.mem_cons.mp h with h1 | h1
      · exact Or.inl h1
      · exact Or.inr h1
    · rcases List.mem_cons.mp h with h1 | h1
      · exact Or.inr (h1 ▸ List.mem_cons_self y ys)
      · rcases ih h1 with h2 | h2
        · exact Or.inl h2
        · exact Or.inr (List.mem_cons_of_mem y h2)

theorem mem_sortMovePos {mv : MovePos} :
    ∀ l : List MovePos, mv ∈ sortMovePos l → mv ∈ l := by
  intro l
  induction l with
  | nil => intro h; simpa [sortMovePos] using h
  | cons x xs ih =>
    intro h
    rw [sortMovePos, List.foldr_cons] at h
    rcases mem_insertMovePos _ h with h1 | h1
    · exact h1 ▸ List.mem_cons_self x xs
    · exact List.mem_cons_of_mem x (ih h1)

theorem movementPositions_dirOk (buckets : List (String × List String)) (text : String) :
    ∀ mv ∈ movementPositions buckets text, dirOkStr mv.2.2.2 := by
  intro mv hmv
  unfold movementPositions at hmv
  have hraw := mem_sortMovePos _ (mem_dropOverlaps _ _ hmv)
  revert hraw
  have key : ∀ (bs : List (String × List String)) (acc : List MovePos),
      (∀ x ∈ acc, dirOkStr x.2.2.2) →
      ∀ x ∈ bs.foldl (fun acc b =>
        (sortLenDesc b.2).foldl (fun acc2 ind =>
          acc2 ++ (finditerKw ind false (pyLower text)).map fun p =>
            (p.1, p.2, ind, normalizeDir b.1)) acc) acc, dirOkStr x.2.2.2 := by
    intro bs
    induction bs with
    | nil => intro acc hacc x hx; exact hacc x hx
    | cons b bs ihb =>
      intro acc hacc x hx
      rw [List.foldl_cons] at hx
      refine ihb _ ?_ x hx
      have inner : ∀ (inds : List String) (acc2 : List MovePos),
          (∀ y ∈ acc2, dirOkStr y.2.2.2) →
          ∀ y ∈ inds.foldl (fun acc2 ind =>
            acc2 ++ (finditerKw ind false (pyLower text)).map fun p =>
              (p.1, p.2, ind, normalizeDir b.1)) acc2, dirOkStr y.2.2.2 := by
        intro inds
        induction inds with
        | nil => intro acc2 hacc2 y hy; exact hacc2 y hy
        | cons i is ihi =>
          intro acc2 hacc2 y hy
          rw [List.foldl_cons] at hy
          refine ihi _ ?_ y hy
          intro z hz
          rcases List.mem_append.mp hz with h1 | h1
          · exact hacc2 z h1
          · obtain ⟨p, _, rfl⟩ := List.mem_map.mp h1
            exact normalizeDir_dirOk b.1
      exact inner _ acc hacc
  exact fun hraw => key buckets [] (by simp) mv hraw

theorem optStep_dirOk (b1 : Option (ℕ × String)) (d : ℕ) (dir : String)
    (hdir : dirOkStr dir) (h1 : ∀ x, b1 = some x → dirOkStr x.2) :
    ∀ z, (match b1 with
          | none => some (d, dir)
          | some (bd, _) => if d < bd then some (d, dir) else b1) = some z →
      dirOkStr z.2 := by
  intro z hz
  cases b1 with
  | none => cases hz; exact hdir
  | some bp =>
    obtain ⟨bd, bdir⟩ := bp
    have hz2 : (if d < bd then some (d, dir) else some (bd, bdir)) = some z := hz
    by_cases hc : d < bd
    · rw [if_pos hc] at hz2; cases hz2; exact hdir
    · rw [if_neg hc] at hz2; exact h1 z hz2

theorem optAppend_dirOk (best : Option (ℕ × String)) (acc : List (String × String))
    (aid : String) (hacc : ∀ r ∈ acc, dirOkStr r.2)
    (hb : ∀ x, best = some x → dirOkStr x.2) :
    ∀ s ∈ (match best with
           | some (_, dir) => acc ++ [(aid, dir)]
           | none => acc), dirOkStr s.2 := by
  intro s hs
  cases best with
  | none => exact hacc s hs
  | some pr =>
    obtain ⟨dd, dir⟩ := pr
    rcases List.mem_append.mp hs with h1 | h1
    · exact hacc s h1
    · have : s = (aid, dir) := by simpa using h1
      subst this
      exact hb _ rfl

theorem proximityMovements_dirOk (tbl buckets : List (String × List String))
    (text : String) : ∀ p ∈ proximityMovements tbl buckets text, dirOkStr p.2 := by
  intro p hp
  simp only [proximityMovements] at hp
  split at hp
  · simp at hp
  · set mps := movementPositions buckets (pyLower text) with hmps
    have hmpsOk : ∀ y ∈ mps, dirOkStr y.2.2.2 := fun y hy =>
      movementPositions_dirOk buckets (pyLower text) y hy
    have hbest : ∀ (ps : List (ℕ × ℕ)) (b0 : Option (ℕ × String)),
        (∀ x, b0 = some x → dirOkStr x.2) →
        ∀ x, (ps.foldl (fun best pos =>
            mps.foldl (fun (best : Option (ℕ × String)) mv =>
              let ac := spanCenter2 pos.1 pos.2
              let mc := spanCenter2 mv.1 mv.2.1
              let d0 := max ac mc - min ac mc
              let d := if mc > ac then 9 * d0 else 10 * d0
              match best with
              | none => some (d, mv.2.2.2)
              | some (bd, _) => if d < bd then some (d, mv.2.2.2) else best) best)
          b0) = some x → dirOkStr x.2 := by
      intro ps
      induction ps with
      | nil => intro b0 h0 x hx; exact h0 x hx
      | cons q qs ihq =>
        intro b0 h0 x hx
        rw [List.foldl_cons] at hx
        refine ihq _ ?_ x hx
        have hinner : ∀ (ms : List MovePos) (b1 : Option (ℕ × String)),
            (∀ y ∈ ms, dirOkStr y.2.2.2) →
            (∀ x, b1 = some x → dirOkStr x.2) →
            ∀ x, (ms.foldl (fun (best : Option (ℕ × String)) mv =>
                let ac := spanCenter2 q.1 q.2
                let mc := spanCenter2 mv.1 mv.2.1
                let d0 := max ac mc - min ac mc
                let d := if mc > ac then 9 * d0 else 10 * d0
                match best with
                | none => some (d, mv.2.2.2)
                | some (bd, _) => if d < bd then some (d, mv.2.2.2) else best) b1)
              = some x → dirOkStr x.2 := by
          intro ms
          induction ms with
          | nil => intro b1 hms h1 x hx; exact h1 x hx
          | cons mv ms ihm =>
            intro b1 hms h1 x hx
            rw [List.foldl_cons] at hx
            refine ihm _ (fun y hy => hms y (List.mem_cons_of_mem mv hy)) ?_ x hx
            exact optStep_dirOk b1 _ _ (hms mv (List.mem_cons_self mv ms)) h1
        exact hinner mps _ hmpsOk h0
    have houter : ∀ (aps : List (String × List (ℕ × ℕ))) (acc : List (String × String)),
        (∀ r ∈ acc, dirOkStr r.2) →
        ∀ r ∈ aps.foldl (fun acc ap =>
            let best := ap.2.foldl (fun best pos =>
              mps.foldl (fun (best : Option (ℕ × String)) mv =>
                let ac := spanCenter2 pos.1 pos.2
                let mc := spanCenter2 mv.1 mv.2.1
                let d0 := max ac mc - min ac mc
                let d := if mc > ac then 9 * d0 else 10 * d0
                match best with
                | none => some (d, mv.2.2.2)
                | some (bd, _) => if d < bd then some (d, mv.2.2.2) else best) best)
              (none : Option (ℕ × String))
            match best with
            | some (_, dir) => acc ++ [(ap.1, dir)]
            | none => acc) acc, dirOkStr r.2 := by
      intro aps
      induction aps with
      | nil => intro acc hacc r hr; exact hacc r hr
      | cons ap aps iha =>
        intro acc hacc r hr
        rw [List.foldl_cons] at hr
        refine iha _ ?_ r hr
        exact optAppend_dirOk _ acc ap.1 hacc
          (hbest ap.2 none (by intro x hx; cases hx))
    exact houter _ [] (by simp) p hp

/-- Plain invariant preservation through a left fold. -/
theorem foldl_inv {α β : Type} (P : β → Prop) (f : β → α → β)
    (hf : ∀ b a, P b → P (f b a)) (l : List α) : ∀ b, P b → P (l.foldl f b) := by
  induction l with
  | nil => intro b hb; simpa using hb
  | cons x xs ih =>
    intro b hb
    rw [List.foldl_cons]
    exact ih (f b x) (hf b x hb)

theorem infer_direction_from_clause_dirOk (c : String) :
    dirOkStr (V2.infer_direction_from_clause c) := by
  simp only [V2.infer_direction_from_clause]
  split_ifs <;>
    first
      | exact Or.inl rfl
      | exact Or.inr (Or.inl rfl)
      | exact Or.inr (Or.inr rfl)

theorem closStep_dirOk (m : List (String × String)) (b : String) (hm : DirOk m) :
    DirOk (if alGet m b = none then alSet m b "neutral" else m) := by
  split
  · exact DirOk_alSet hm (Or.inr (Or.inr rfl))
  · exact hm

theorem closStep_keeps (m : List (String × String)) (b a : String)
    (h : (alGet m a).isSome) :
    (alGet (if alGet m b = none then alSet m b "neutral" else m) a).isSome := by
  split
  · rw [alGet_alSet]
    split
    · simp
    · exact h
  · exact h

/-- The closure pass of the direction resolver: every asset of `l` ends up with a
legal direction. -/
theorem closure_total (l : List String) :
    ∀ m : List (String × String), DirOk m → ∀ a ∈ l,
      ∃ d, alGet (l.foldl
          (fun m a => if alGet m a = none then alSet m a "neutral" else m) m) a
        = some d ∧ dirOkStr d := by
  have keeps : ∀ (l' : List String) (m : List (String × String)) (a : String),
      (alGet m a).isSome →
      (alGet (l'.foldl
        (fun m a => if alGet m a = none then alSet m a "neutral" else m) m) a).isSome :=
    fun l' m a h =>
      foldl_inv (fun m => (alGet m a).isSome) _
        (fun m b hb => closStep_keeps m b a hb) l' m h
  have dirok : ∀ (l' : List String) (m : List (String × String)), DirOk m →
      DirOk (l'.foldl
        (fun m a => if alGet m a = none then alSet m a "neutral" else m) m) :=
    fun l' m h =>
      foldl_inv DirOk _ (fun m b hb => closStep_dirOk m b hb) l' m h
  intro m hm a ha
  have hsome : (alGet (l.foldl
      (fun m a => if alGet m a = none then alSet m a "neutral" else m) m) a).isSome := by
    clear hm
    induction l generalizing m with
    | nil => simp at ha
    | cons b l ih =>
      rw [List.foldl_cons]
      rcases List.mem_cons.mp ha with rfl | ha'
      · refine keeps l _ a ?_
        cases hb : alGet m a with
        | none => simp [hb, alGet_alSet]
        | some v => simp [hb]
      · exact ih _ ha' 
  obtain ⟨d, hd⟩ := Option.isSome_iff_exists.mp hsome
  exact ⟨d, hd, dirok l m hm a d hd⟩

/-- C4: for every headline, every asset detected in it receives a direction in
the asset-movement map produced by `extract_asset_movement_pairs`, and that
direction is one of `positive`, `negative`, `neutral` — no detected asset is
left without an entry. -/
theorem c4_direction_totality :
    ∀ text asset : String, asset ∈ V2.detect_assets (pyLower text) →
      ∃ d, alGet (V2.extract_asset_movement_pairs text) asset = some d ∧
        (d = "positive" ∨ d = "negative" ∨ d = "neutral") := by
  intro text asset hmem
  simp only [V2.extract_asset_movement_pairs]
  refine closure_total _ _ ?_ asset hmem
  have hphase1 : DirOk (((clausesOf V2.SPLIT_PATTERNS (pyLower text)).foldl
      (fun st clause =>
        (V2.ASSET_KEYWORDS.filterMap fun a =>
          if a.2.any (fun kw => searchKw kw true clause) then some a.1 else none).foldl
          (fun st asset =>
            if alGet st.1 asset = none ||
                V2.infer_direction_from_clause clause ≠ "neutral" then
              (alSet st.1 asset (V2.infer_direction_from_clause clause),
               addUnique st.2 asset)
            else st) st)
      ([], [])).1) := by
    refine foldl_inv (fun st : List (String × String) × List String => DirOk st.1)
      _ ?_ _ ([], []) DirOk_nil
    intro st clause hst
    refine foldl_inv (fun st : List (String × String) × List String => DirOk st.1)
      _ ?_ _ st hst
    intro st2 a2 hst2
    dsimp only
    split
    · exact DirOk_alSet hst2 (infer_direction_from_clause_dirOk clause)
    · exact hst2
  split
  · refine foldl_inv_mem (fun m => DirOk m) (fun p => dirOkStr p.2) _ _
      (fun p hp => proximityMovements_dirOk _ _ _ p hp) ?_ _ hphase1
    intro m ad had hm
    dsimp only
    split
    · exact DirOk_alSet hm had
    · exact hm
  · exact hphase1

/-- C4 (witness): the totality theorem applied to the headline `"gold rose"`
and the detected asset `gold`. -/
theorem c4_direction_totality_witness :
    "gold" ∈ V2.detect_assets (pyLower "gold rose") ∧
    ∃ d, alGet (V2.extract_asset_movement_pairs "gold rose") "gold" = some d ∧
      (d = "positive" ∨ d = "negative" ∨ d = "neutral") :=
  ⟨by decide, c4_direction_totality "gold rose" "gold" (by decide)⟩

set_option maxHeartbeats 40000000 in
/-- C5: on the single headline
`"Dollar surges while gold retreats on strong jobs data"` the v2 engine detects
the `employment` event and the assets `gold` and `dollar`, resolves `dollar` to
`positive` and `gold` to `negative`, emits exactly two event→asset candidate
edges (one per asset, opposite directions), and the exported knowledge graph
links both assets to the employment event with the opposite direction-derived
relation names `NEGATIVELY_IMPACTS` (gold) and `POSITIVELY_IMPACTS` (dollar). -/
theorem c5_single_headline :
    ((V2.extract_multi_event_relations
        [some "Dollar surges while gold retreats on strong jobs data"]).event_edges.map
      fun e => (e.event, e.target, e.targetTy, e.direction)) =
      [("employment", "gold", "asset", "negative"),
       ("employment", "dollar", "asset", "positive")] ∧
    ((V2.build_event_edges (V2.extract_multi_event_relations
        [some "Dollar surges while gold retreats on strong jobs data"]).event_edges).map
      fun e => (e.source, e.target, e.relation, e.polarity)) =
      [("event:employment", "asset:gold", "NEGATIVELY_IMPACTS", "negative"),
       ("event:employment", "asset:dollar", "POSITIVELY_IMPACTS", "positive")] := by
  constructor
  · decide
  · decide

/-! ## C6: the relaxed asset–asset classification -/

theorem mem_pairsOf {α : Type} {l : List α} {p : α × α} (h : p ∈ pairsOf l) :
    p.1 ∈ l ∧ p.2 ∈ l := by
  induction l with
  | nil => simp [pairsOf] at h
  | cons x xs ih =>
    simp only [pairsOf, List.mem_append, List.mem_map] at h
    rcases h with ⟨y, hy, rfl⟩ | h
    · exact ⟨List.mem_cons_self _ _, List.mem_cons_of_mem _ hy⟩
    · exact ⟨List.mem_cons_of_mem _ (ih h).1, List.mem_cons_of_mem _ (ih h).2⟩

theorem count_map_pair {α : Type} [DecidableEq α] (x a b : α) (xs : List α) :
    ((xs.map fun y => (x, y)).count (a, b)) = if x = a then xs.count b else 0 := by
  induction xs with
  | nil => simp
  | cons z zs ih =>
    simp only [List.map_cons, List.count_cons, ih, beq_iff_eq, Prod.mk.injEq]
    by_cases hx : x = a
    · subst hx
      by_cases hz : b = z
      · simp [hz]
      · simp [hz]
    · simp [hx, fun (h : a = x) => hx h.symm]

theorem count_pairsOf {α : Type} [DecidableEq α] :
    ∀ (l : List α), l.Nodup → ∀ a b, a ∈ l → b ∈ l → a ≠ b →
      (pairsOf l).count (a, b) + (pairsOf l).count (b, a) = 1 := by
  intro l
  induction l with
  | nil => intro _ a b ha; simp at ha
  | cons x xs ih =>
    intro hnd a b ha hb hne
    rw [List.nodup_cons] at hnd
    simp only [pairsOf, List.count_append, count_map_pair]
    rcases List.mem_cons.mp ha with rfl | ha1
    · rcases List.mem_cons.mp hb with rfl | hb1
      · exact absurd rfl hne
      · have h1 : (pairsOf xs).count (a, b) = 0 := by
          rw [List.count_eq_zero]
          intro hmem
          exact hnd.1 (mem_pairsOf hmem).1
        have h2 : (pairsOf xs).count (b, a) = 0 := by
          rw [List.count_eq_zero]
          intro hmem
          exact hnd.1 (mem_pairsOf hmem).2
        rw [if_pos rfl, if_neg hne, h1, h2,
          List.count_eq_one_of_mem hnd.2 hb1]
    · rcases List.mem_cons.mp hb with rfl | hb1
      · have h1 : (pairsOf xs).count (a, b) = 0 := by
          rw [List.count_eq_zero]
          intro hmem
          exact hnd.1 (mem_pairsOf hmem).2
        have h2 : (pairsOf xs).count (b, a) = 0 := by
          rw [List.count_eq_zero]
          intro hmem
          exact hnd.1 (mem_pairsOf hmem).1
        rw [if_neg (Ne.symm hne), if_pos rfl, h1, h2,
          List.count_eq_one_of_mem hnd.2 ha1]
      · have hxa : x ≠ a := fun h => hnd.1 (h ▸ ha1)
        have hxb : x ≠ b := fun h => hnd.1 (h ▸ hb1)
        rw [if_neg hxa, if_neg hxb]
        simpa using ih hnd.2 a b ha1 hb1 hne

theorem count_map_pair_inj {α β : Type} [DecidableEq α] [DecidableEq β]
    (f : α × α → β) (hf : Function.Injective f) (x : α × α) :
    ∀ l : List (α × α), (l.map f).count (f x) = l.count x := by
  intro l
  induction l with
  | nil => simp
  | cons y ys ih =>
    simp only [List.map_cons, List.count_cons, ih, beq_iff_eq, hf.eq_iff]

theorem strAppend_left_cancel {s x y : String} (h : s ++ x = s ++ y) : x = y := by
  have hd := congrArg String.data h
  simp only [String.data_append] at hd
  exact String.ext (List.append_cancel_left hd)

set_option maxHeartbeats 40000000 in
/-- C6 (counterexample): on the headline `"gold and dollar"` (with the lexicon
tables the spec describes as externally configured, instantiated by
`specConfig`) the relaxed v3 engine detects the two assets `gold` and `dollar`,
resolves both to the `neutral` direction, and emits for the pair the relation
`POSITIVE_CORRELATION` — refuting the claim that `POSITIVE_CORRELATION` requires
equal *non-neutral* directions and that a neutral direction always yields
`CO_OCCURRENCE`. -/
theorem c6_counterexample :
    (V3.extract_relaxed specConfig [some "gold and dollar"]).raw_edges =
      [⟨"asset:gold", "asset", "asset:dollar", "asset", "POSITIVE_CORRELATION",
        ⟨"gold and dollar", none, none⟩⟩] ∧
    alGet (V3.extract_asset_movement_pairs specConfig "gold and dollar") "gold" =
      some "neutral" ∧
    alGet (V3.extract_asset_movement_pairs specConfig "gold and dollar") "dollar" =
      some "neutral" := by
  refine ⟨by decide, by decide, by decide⟩

/-- C6 (amended): the relaxed v3 classifier labels an asset pair
`POSITIVE_CORRELATION` exactly when the two resolved directions are *equal*
(including the case where both are `neutral`), `NEGATIVE_CORRELATION` exactly
when they are non-neutral and differ, and `CO_OCCURRENCE` exactly when they
differ with at least one `neutral`; and for a duplicate-free detected asset
list it emits exactly one asset→asset edge per unordered pair of distinct
assets, whose relation is the classification of the two resolved directions. -/
theorem c6_amended_pair_classification :
    (∀ d1 d2 : String,
       (V3.asset_asset_relation d1 d2 = "POSITIVE_CORRELATION" ↔ d1 = d2) ∧
       (V3.asset_asset_relation d1 d2 = "NEGATIVE_CORRELATION" ↔
         d1 ≠ d2 ∧ d1 ≠ "neutral" ∧ d2 ≠ "neutral") ∧
       (V3.asset_asset_relation d1 d2 = "CO_OCCURRENCE" ↔
         d1 ≠ d2 ∧ (d1 = "neutral" ∨ d2 = "neutral"))) ∧
    (∀ (assets : List String) (movements : List (String × String)) (ev : V3.V3Evid)
       (a b : String), assets.Nodup → a ∈ assets → b ∈ assets → a ≠ b →
       (V3.asset_asset_edges assets movements ev).count
           (⟨"asset:" ++ a, "asset", "asset:" ++ b, "asset",
             V3.asset_asset_relation ((alGet movements a).getD "neutral")
               ((alGet movements b).getD "neutral"), ev⟩ : V3.RawEdge) +
        (V3.asset_asset_edges assets movements ev).count
           (⟨"asset:" ++ b, "asset", "asset:" ++ a, "asset",
             V3.asset_asset_relation ((alGet movements b).getD "neutral")
               ((alGet movements a).getD "neutral"), ev⟩ : V3.RawEdge) = 1) ∧
    (∀ (assets : List String) (movements : List (String × String)) (ev : V3.V3Evid)
       (e : V3.RawEdge), e ∈ V3.asset_asset_edges assets movements ev →
       ∃ p, p ∈ pairsOf assets ∧
         e = ⟨"asset:" ++ p.1, "asset", "asset:" ++ p.2, "asset",
           V3.asset_asset_relation ((alGet movements p.1).getD "neutral")
             ((alGet movements p.2).getD "neutral"), ev⟩) := by
  refine ⟨?_, ?_, ?_⟩
  · intro d1 d2
    by_cases h12 : d1 = d2
    · have hrel : V3.asset_asset_relation d1 d2 = "POSITIVE_CORRELATION" := by
        simp [V3.asset_asset_relation, h12]
      refine ⟨iff_of_true (by rw [hrel]) h12, ?_, ?_⟩
      · exact iff_of_false (by rw [hrel]; decide) (fun h => h.1 h12)
      · exact iff_of_false (by rw [hrel]; decide) (fun h => h.1 h12)
    · have hb : (d1 == d2) = false := beq_eq_false_iff_ne.mpr h12
      by_cases hn1 : d1 = "neutral"
      · have hrel : V3.asset_asset_relation d1 d2 = "CO_OCCURRENCE" := by
          have c2 : decide (d1 ≠ "neutral") = false := by simp [hn1]
          simp [V3.asset_asset_relation, hb, c2]
        refine ⟨iff_of_false (by rw [hrel]; decide) h12, ?_, ?_⟩
        · exact iff_of_false (by rw [hrel]; decide) (fun h => h.2.1 hn1)
        · exact iff_of_true (by rw [hrel]) ⟨h12, Or.inl hn1⟩
      · by_cases hn2 : d2 = "neutral"
        · have hrel : V3.asset_asset_relation d1 d2 = "CO_OCCURRENCE" := by
            have c2 : decide (d2 ≠ "neutral") = false := by simp [hn2]
            simp [V3.asset_asset_relation, hb, c2]
          refine ⟨iff_of_false (by rw [hrel]; decide) h12, ?_, ?_⟩
          · exact iff_of_false (by rw [hrel]; decide) (fun h => h.2.2 hn2)
          · exact iff_of_true (by rw [hrel]) ⟨h12, Or.inr hn2⟩
        · have hrel : V3.asset_asset_relation d1 d2 = "NEGATIVE_CORRELATION" := by
            have c2 : decide (d1 ≠ "neutral") = true := by simp [hn1]
            have c3 : decide (d2 ≠ "neutral") = true := by simp [hn2]
            have c4 : decide (d1 ≠ d2) = true := by simp [h12]
            simp [V3.asset_asset_relation, hb, c2, c3, c4]
          refine ⟨iff_of_false (by rw [hrel]; decide) h12, ?_, ?_⟩
          · exact iff_of_true (by rw [hrel]) ⟨h12, hn1, hn2⟩
          · exact iff_of_false (by rw [hrel]; decide)
              (fun h => h.2.elim hn1 hn2)
  · intro assets movements ev a b hnd ha hb hne
    have hinj : Function.Injective (fun p : String × String =>
        (⟨"asset:" ++ p.1, "asset", "asset:" ++ p.2, "asset",
          V3.asset_asset_relation ((alGet movements p.1).getD "neutral")
            ((alGet movements p.2).getD "neutral"), ev⟩ : V3.RawEdge)) := by
      intro p q h
      simp only [V3.RawEdge.mk.injEq] at h
      exact Prod.ext (strAppend_left_cancel h.1) (strAppend_left_cancel h.2.2.1)
    have h1 := count_map_pair_inj _ hinj (a, b) (pairsOf assets)
    have h2 := count_map_pair_inj _ hinj (b, a) (pairsOf assets)
    have hedges : V3.asset_asset_edges assets movements ev =
        (pairsOf assets).map (fun p : String × String =>
          (⟨"asset:" ++ p.1, "asset", "asset:" ++ p.2, "asset",
            V3.asset_asset_relation ((alGet movements p.1).getD "neutral")
              ((alGet movements p.2).getD "neutral"), ev⟩ : V3.RawEdge)) := rfl
    rw [hedges]
    rw [show (⟨"asset:" ++ a, "asset", "asset:" ++ b, "asset",
          V3.asset_asset_relation ((alGet movements a).getD "neutral")
            ((alGet movements b).getD "neutral"), ev⟩ : V3.RawEdge) =
        (fun p : String × String =>
          (⟨"asset:" ++ p.1, "asset", "asset:" ++ p.2, "asset",
            V3.asset_asset_relation ((alGet movements p.1).getD "neutral")
              ((alGet movements p.2).getD "neutral"), ev⟩ : V3.RawEdge)) (a, b) from rfl,
      show (⟨"asset:" ++ b, "asset", "asset:" ++ a, "asset",
          V3.asset_asset_relation ((alGet movements b).getD "neutral")
            ((alGet movements a).getD "neutral"), ev⟩ : V3.RawEdge) =
        (fun p : String × String =>
          (⟨"asset:" ++ p.1, "asset", "asset:" ++ p.2, "asset",
            V3.asset_asset_relation ((alGet movements p.1).getD "neutral")
              ((alGet movements p.2).getD "neutral"), ev⟩ : V3.RawEdge)) (b, a) from rfl,
      h1, h2]
    exact count_pairsOf assets hnd a b ha hb hne
  · intro assets movements ev e he
    have hedges : V3.asset_asset_edges assets movements ev =
        (pairsOf assets).map (fun p : String × String =>
          (⟨"asset:" ++ p.1, "asset", "asset:" ++ p.2, "asset",
            V3.asset_asset_relation ((alGet movements p.1).getD "neutral")
              ((alGet movements p.2).getD "neutral"), ev⟩ : V3.RawEdge)) := rfl
    rw [hedges, List.mem_map] at he
    rcases he with ⟨p, hp, rfl⟩
    exact ⟨p, hp, rfl⟩

/-- C6 (amended, witness): the exactly-one-edge-per-unordered-pair part of
`c6_amended_pair_classification` instantiated at the detected asset list
`["gold", "dollar"]` with an empty movement map. -/
theorem c6_amended_witness :
    (V3.asset_asset_edges ["gold", "dollar"] [] ⟨"t", none, none⟩).count
        (⟨"asset:" ++ "gold", "asset", "asset:" ++ "dollar", "asset",
          V3.asset_asset_relation
            ((alGet ([] : List (String × String)) "gold").getD "neutral")
            ((alGet ([] : List (String × String)) "dollar").getD "neutral"),
          ⟨"t", none, none⟩⟩ : V3.RawEdge) +
      (V3.asset_asset_edges ["gold", "dollar"] [] ⟨"t", none, none⟩).count
        (⟨"asset:" ++ "dollar", "asset", "asset:" ++ "gold", "asset",
          V3.asset_asset_relation
            ((alGet ([] : List (String × String)) "dollar").getD "neutral")
            ((alGet ([] : List (String × String)) "gold").getD "neutral"),
          ⟨"t", none, none⟩⟩ : V3.RawEdge) = 1 :=
  c6_amended_pair_classification.2.1 ["gold", "dollar"] [] ⟨"t", none, none⟩
    "gold" "dollar" (by decide) (by decide) (by decide) (by decide)

/-! ## C7: the causal classifiers -/

namespace V2

theorem mcpInv_step (tl : String) (hm : Bool) (pre : List CausalPattern)
    (st : Option (String × String) × Int) (pc : CausalPattern)
    (h : mcpInv tl hm pre st) :
    mcpInv tl hm (pre ++ [pc])
      (if pc.requiresMovement && ¬ hm then st
       else if reSearch pc.pattern tl then
         if (pc.priority : Int) > st.2 then
           (some (pc.name, infer_direction_from_movement tl), (pc.priority : Int))
         else st
       else st) := by
  split
  · rename_i hskip
    simp only [Bool.and_eq_true, decide_eq_true_eq, Bool.not_eq_true] at hskip
    have helig : ¬ pcEligible hm pc := fun he => by
      rw [he hskip.1] at hskip
      exact absurd hskip.2 (by simp)
    rcases h with ⟨hst, hnone⟩ | ⟨pc0, hmem0, he0, hr0, h10, h20, hmax0⟩
    · left
      refine ⟨hst, fun q hq he => ?_⟩
      rcases List.mem_append.mp hq with hq1 | hq1
      · exact hnone q hq1 he
      · rw [List.mem_singleton] at hq1
        subst hq1
        exact (helig he).elim
    · right
      refine ⟨pc0, List.mem_append_left _ hmem0, he0, hr0, h10, h20,
        fun q hq he hr => ?_⟩
      rcases List.mem_append.mp hq with hq1 | hq1
      · exact hmax0 q hq1 he hr
      · rw [List.mem_singleton] at hq1
        subst hq1
        exact (helig he).elim
  · rename_i hskip
    have helig : pcEligible hm pc := by
      intro hrm
      by_contra hhm
      exact hskip (by simp [hrm, hhm])
    split
    · rename_i hsr
      split
      · rename_i hgt
        right
        refine ⟨pc, List.mem_append_right _ (List.mem_singleton.mpr rfl), helig,
          hsr, rfl, rfl, fun q hq he hr => ?_⟩
        rcases List.mem_append.mp hq with hq1 | hq1
        · rcases h with ⟨hst, hnone⟩ | ⟨pc0, hmem0, he0, hr0, h10, h20, hmax0⟩
          · rw [hnone q hq1 he] at hr
            cases hr
          · have hlt : pc0.priority < pc.priority := by
              rw [h20] at hgt
              exact_mod_cast hgt
            exact le_trans (hmax0 q hq1 he hr) (le_of_lt hlt)
        · rw [List.mem_singleton] at hq1
          subst hq1
          exact le_refl _
      · rename_i hngt
        rcases h with ⟨hst, hnone⟩ | ⟨pc0, hmem0, he0, hr0, h10, h20, hmax0⟩
        · exfalso
          subst hst
          simp only [not_lt] at hngt
          omega
        · right
          refine ⟨pc0, List.mem_append_left _ hmem0, he0, hr0, h10, h20,
            fun q hq he hr => ?_⟩
          rcases List.mem_append.mp hq with hq1 | hq1
          · exact hmax0 q hq1 he hr
          · rw [List.mem_singleton] at hq1
            subst hq1
            have hle : ((q.priority : Int)) ≤ (pc0.priority : Int) := by
              rw [h20] at hngt
              omega
            exact_mod_cast hle
    · rename_i hsr
      have hsr0 : reSearch pc.pattern tl = false := by
        simpa using hsr
      rcases h with ⟨hst, hnone⟩ | ⟨pc0, hmem0, he0, hr0, h10, h20, hmax0⟩
      · left
        refine ⟨hst, fun q hq he => ?_⟩
        rcases List.mem_append.mp hq with hq1 | hq1
        · exact hnone q hq1 he
        · rw [List.mem_singleton] at hq1
          subst hq1
          exact hsr0
      · right
        refine ⟨pc0, List.mem_append_left _ hmem0, he0, hr0, h10, h20,
          fun q hq he hr => ?_⟩
        rcases List.mem_append.mp hq with hq1 | hq1
        · exact hmax0 q hq1 he hr
        · rw [List.mem_singleton] at hq1
          subst hq1
          rw [hsr0] at hr
          cases hr

theorem mcpInv_foldl (tl : String) (hm : Bool) :
    ∀ (l pre : List CausalPattern) (st : Option (String × String) × Int),
      mcpInv tl hm pre st →
      mcpInv tl hm (pre ++ l)
        (l.foldl (fun best pc =>
          if pc.requiresMovement && ¬ hm then best
          else if reSearch pc.pattern tl then
            if (pc.priority : Int) > best.2 then
              (some (pc.name, infer_direction_from_movement tl), (pc.priority : Int))
            else best
          else best) st) := by
  intro l
  induction l with
  | nil =>
    intro pre st h
    simpa using h
  | cons x xs ih =>
    intro pre st h
    rw [List.foldl_cons]
    have h1 := mcpInv_step tl hm pre st x h
    have h2 := ih (pre ++ [x]) _ h1
    simpa [List.append_assoc] using h2

theorem mcpInv_result (text : String) (assetTy : String) :
    mcpInv (pyLower text) (has_movement (pyLower text)) CAUSAL_PATTERNS
      ((CAUSAL_PATTERNS.foldl (fun best pc =>
          if pc.requiresMovement && ¬ has_movement (pyLower text) then best
          else if reSearch pc.pattern (pyLower text) then
            if (pc.priority : Int) > best.2 then
              (some (pc.name, infer_direction_from_movement (pyLower text)),
               (pc.priority : Int))
            else best
          else best) (none, -1))) := by
  have h := mcpInv_foldl (pyLower text) (has_movement (pyLower text))
    CAUSAL_PATTERNS [] (none, -1) (Or.inl ⟨rfl, by simp⟩)
  simpa using h

end V2

namespace KG1

theorem mem_insertPrioDesc (x a : CausalPattern) (l : List CausalPattern) :
    a ∈ insertPrioDesc x l ↔ a = x ∨ a ∈ l := by
  induction l with
  | nil => simp [insertPrioDesc]
  | cons y ys ih =>
    by_cases h : y.priority ≤ x.priority
    · simp [insertPrioDesc, if_pos h, List.mem_cons]
    · simp only [insertPrioDesc, if_neg h, List.mem_cons, ih]
      tauto

theorem mem_sortPrioDesc (a : CausalPattern) (l : List CausalPattern) :
    a ∈ sortPrioDesc l ↔ a ∈ l := by
  induction l with
  | nil => simp [sortPrioDesc]
  | cons y ys ih =>
    simp [sortPrioDesc, List.foldr_cons, mem_insertPrioDesc, List.mem_cons]
    rw [show List.foldr insertPrioDesc [] ys = sortPrioDesc ys from rfl] at *
    tauto

theorem pairwise_insertPrioDesc (x : CausalPattern) (l : List CausalPattern)
    (h : l.Pairwise fun a b => b.priority ≤ a.priority) :
    (insertPrioDesc x l).Pairwise fun a b => b.priority ≤ a.priority := by
  induction l with
  | nil => simp [insertPrioDesc]
  | cons y ys ih =>
    rw [List.pairwise_cons] at h
    by_cases hle : y.priority ≤ x.priority
    · simp only [insertPrioDesc, if_pos hle]
      rw [List.pairwise_cons]
      refine ⟨fun z hz => ?_, List.pairwise_cons.mpr h⟩
      rcases List.mem_cons.mp hz with rfl | hz1
      · exact hle
      · exact le_trans (h.1 z hz1) hle
    · simp only [insertPrioDesc, if_neg hle]
      rw [List.pairwise_cons]
      refine ⟨fun z hz => ?_, ih h.2⟩
      rcases (mem_insertPrioDesc x z ys).mp hz with rfl | hz1
      · omega
      · exact h.1 z hz1

theorem pairwise_sortPrioDesc (l : List CausalPattern) :
    (sortPrioDesc l).Pairwise fun a b => b.priority ≤ a.priority := by
  induction l with
  | nil => simp [sortPrioDesc]
  | cons y ys ih => exact pairwise_insertPrioDesc y _ ih

theorem find_sorted_max {f : CausalPattern → Bool} :
    ∀ {l : List CausalPattern}, (l.Pairwise fun a b => b.priority ≤ a.priority) →
      ∀ {pc}, l.find? f = some pc → ∀ q ∈ l, f q = true → q.priority ≤ pc.priority := by
  intro l
  induction l with
  | nil =>
    intro _ pc h
    cases h
  | cons x xs ih =>
    intro hp pc h q hq hfq
    rw [List.pairwise_cons] at hp
    cases hfx : f x
    · rw [List.find?_cons_of_neg _ (by simp [hfx])] at h
      rcases List.mem_cons.mp hq with rfl | hq1
      · rw [hfx] at hfq
        cases hfq
      · exact ih hp.2 h q hq1 hfq
    · rw [List.find?_cons_of_pos _ hfx] at h
      injection h with h1
      subst h1
      rcases List.mem_cons.mp hq with rfl | hq1
      · exact le_refl _
      · exact hp.1 q hq1

end KG1

/-- C7 (counterexample): on the headline `"calm ahead of jobs report"` no
movement-indicator phrase occurs (neither by the kg_1 substring convention nor
by the v2 word-boundary one), yet the first-generation classifier selects the
rule `movement_before`, whose `requires_movement` flag is set — its rule loop
never consults the flag — refuting the claim that no classifier ever selects a
movement-gated rule without a movement indicator.  (The v2 classifier correctly
returns no match on the same headline.) -/
theorem c7_counterexample :
    KG1.selected_rule "calm ahead of jobs report" =
      some ⟨"movement_before",
        "(before|ahead of|awaiting?|anticipating?)\\s+.*?(rate cut|jobs report|employment data)",
        true, 8⟩ ∧
    (KG1.match_causal_pattern "calm ahead of jobs report" "gold").1 =
      "movement_before" ∧
    (KG1.MOVEMENT_INDICATORS.all fun b => b.2.all fun i =>
      !(strContains (pyLower "calm ahead of jobs report") i)) = true ∧
    V2.has_movement (pyLower "calm ahead of jobs report") = false ∧
    V2.match_causal_pattern "calm ahead of jobs report" "gold" = none := by
  refine ⟨by decide, by decide, by decide, by decide, by decide⟩

/-- C7 (amended): the v2 classifier honours the movement gate — any match it
returns comes from a rule of the table that matched, whose `requires_movement`
flag (if set) is backed by a movement indicator, and whose priority is maximal
among the eligible matching rules; when it returns no match the caller falls
back to the label `co_occurrence`.  The first-generation classifier returns the
matching rule of highest priority but *without* consulting the movement gate,
and falls back to `general_context` exactly when no rule of its table
matches. -/
theorem c7_amended_priority_and_gate :
    (∀ text assetTy r, V2.match_causal_pattern text assetTy = some r →
       ∃ pc, pc ∈ V2.CAUSAL_PATTERNS ∧
         r = (pc.name, V2.infer_direction_from_movement (pyLower text)) ∧
         reSearch pc.pattern (pyLower text) = true ∧
         (pc.requiresMovement = true → V2.has_movement (pyLower text) = true) ∧
         (∀ pc', pc' ∈ V2.CAUSAL_PATTERNS →
           (pc'.requiresMovement = true → V2.has_movement (pyLower text) = true) →
           reSearch pc'.pattern (pyLower text) = true →
           pc'.priority ≤ pc.priority)) ∧
    (∀ text assetTy, V2.match_causal_pattern text assetTy = none →
       V2.pattern_name text assetTy = "co_occurrence") ∧
    (∀ text assetTy,
       ((KG1.match_causal_pattern text assetTy).1 = "general_context" ∧
         ∀ pc, pc ∈ KG1.CAUSAL_PATTERNS → reSearch pc.pattern (pyLower text) = false) ∨
       (∃ pc, pc ∈ KG1.CAUSAL_PATTERNS ∧
         (KG1.match_causal_pattern text assetTy).1 = pc.name ∧
         reSearch pc.pattern (pyLower text) = true ∧
         ∀ pc', pc' ∈ KG1.CAUSAL_PATTERNS →
           reSearch pc'.pattern (pyLower text) = true →
           pc'.priority ≤ pc.priority)) := by
  refine ⟨?_, ?_, ?_⟩
  · intro text assetTy r h
    have hinv := V2.mcpInv_result text assetTy
    have hmc : V2.match_causal_pattern text assetTy =
        ((V2.CAUSAL_PATTERNS.foldl (fun best pc =>
          if pc.requiresMovement && ¬ V2.has_movement (pyLower text) then best
          else if reSearch pc.pattern (pyLower text) then
            if (pc.priority : Int) > best.2 then
              (some (pc.name, V2.infer_direction_from_movement (pyLower text)),
               (pc.priority : Int))
            else best
          else best) (none, -1))).1 := rfl
    rw [hmc] at h
    rcases hinv with ⟨hst, _⟩ | ⟨pc, hmem, he, hr, h1, _, hmax⟩
    · rw [hst] at h
      cases h
    · rw [h1] at h
      injection h with h2
      exact ⟨pc, hmem, h2.symm, hr, he, fun pc' hm' he' hr' => hmax pc' hm' he' hr'⟩
  · intro text assetTy h
    simp [V2.pattern_name, h]
  · intro text assetTy
    cases hfind : KG1.selected_rule text with
    | none =>
      left
      have hfind1 : (KG1.sortPrioDesc KG1.CAUSAL_PATTERNS).find?
          (fun pc => reSearch pc.pattern (pyLower text)) = none := hfind
      constructor
      · simp [KG1.match_causal_pattern, hfind]
      · intro pc hpc
        have := List.find?_eq_none.mp hfind1 pc
          ((KG1.mem_sortPrioDesc pc _).mpr hpc)
        simpa using this
    | some pc =>
      right
      have hfind1 : (KG1.sortPrioDesc KG1.CAUSAL_PATTERNS).find?
          (fun pc => reSearch pc.pattern (pyLower text)) = some pc := hfind
      refine ⟨pc, (KG1.mem_sortPrioDesc pc _).mp (List.mem_of_find?_eq_some hfind1),
        ?_, ?_, ?_⟩
      · simp [KG1.match_causal_pattern, hfind]
      · have h3 := List.find?_some hfind1
        simpa using h3
      · intro pc' hpc' hr'
        exact KG1.find_sorted_max (KG1.pairwise_sortPrioDesc _) hfind1 pc'
          ((KG1.mem_sortPrioDesc pc' _).mpr hpc') hr'

/-- C7 (amended, witness): the fallback part of `c7_amended_priority_and_gate`
instantiated at the headline `"xyz"`, on which no v2 causal pattern matches. -/
theorem c7_amended_witness : V2.pattern_name "xyz" "gold" = "co_occurrence" :=
  c7_amended_priority_and_gate.2.1 "xyz" "gold" (by decide)

/-! ## C8: the volatility-asset inversion -/

set_option maxHeartbeats 40000000 in
/-- C8 (counterexample): in `"vix in retreat after jobs report"` the volatility
asset `vix` is detected and the movement indicator `retreat` (bucket
`weak_negative`) co-occurs with the literal alias `vix`; the Direction Resolver
resolves `vix` to `negative`, yet the engine still inverts it and emits
direction `positive` — because `vix_explicit` consults only the
`positive`/`strong_positive`/`negative`/`strong_negative` buckets, not the weak
or neutral ones — refuting the claim that any co-occurring movement indicator
overrides the inversion. -/
theorem c8_counterexample :
    V2.detect_assets (pyLower "vix in retreat after jobs report") = ["vix"] ∧
    "retreat" ∈ (alistGet V2.MOVEMENT_INDICATORS "weak_negative").getD [] ∧
    strContains (pyLower "vix in retreat after jobs report") "retreat" = true ∧
    strContains (pyLower "vix in retreat after jobs report") "vix" = true ∧
    alGet (V2.extract_asset_movement_pairs "vix in retreat after jobs report")
      "vix" = some "negative" ∧
    V2.vix_explicit (pyLower "vix in retreat after jobs report") = false ∧
    ((V2.extract_multi_event_relations
        [some "vix in retreat after jobs report"]).mechanism_edges.map
      fun e => (e.mechanism, e.asset, e.direction)) =
      [("mech:after_jobs_report", "vix", "positive")] := by
  refine ⟨by decide, by decide, by decide, by decide, by decide, by decide,
    by decide⟩

/-- C8 (amended): for the `vix` asset the v2 engine keeps the base direction
exactly when `vix_explicit` holds — i.e. when some indicator of the `positive`,
`strong_positive`, `negative` or `strong_negative` bucket (only those four of
the seven buckets) occurs as a raw substring anywhere in a headline that also
contains `"vix"` — and otherwise swaps `positive` and `negative` (leaving any
other direction unchanged); the relaxed v3 engine does the same with its
`vix_explicit` testing the positive buckets only, and never inverts a `neutral`
base. -/
theorem c8_amended_vix_inversion :
    (∀ (text et : String) (strength : Option String) (mechs : List String)
       (base : String),
       V2.infer_direction_with_context text et strength mechs "vix" (some base) =
         if V2.vix_explicit (pyLower text) then base
         else if base == "positive" then "negative"
         else if base == "negative" then "positive"
         else base) ∧
    (∀ (cfg : V3.Config) (text et base : String),
       V3.infer_direction_with_context cfg text et "vix" (some base) =
         if V3.vix_explicit cfg (pyLower text) || base == "neutral" then base
         else if base == "positive" then "negative"
         else if base == "negative" then "positive"
         else base) := by
  constructor
  · intro text et strength mechs base
    have e1 : ("vix" == "dollar") = false := by decide
    have e2 : ("vix" == "bonds") = false := by decide
    have e3 : ("vix" == "yields") = false := by decide
    have e4 : ("vix" == "gold") = false := by decide
    have e5 : ("vix" == "stocks") = false := by decide
    have e6 : ("vix" == "vix") = true := by decide
    by_cases hv : V2.vix_explicit (pyLower text) = true
    · simp [V2.infer_direction_with_context, e1, e2, e3, e4, e5, e6, hv]
    · simp [V2.infer_direction_with_context, e1, e2, e3, e4, e5, e6, hv]
  · intro cfg text et base
    by_cases hv : V3.vix_explicit cfg (pyLower text) = true
    · simp [V3.infer_direction_with_context, hv]
    · by_cases hn : base = "neutral"
      · simp [V3.infer_direction_with_context, hv, hn]
      · simp [V3.infer_direction_with_context, hv, hn]

/-! ## C9: handling of missing and empty headline entries -/

/-- C9 (code bug): the v2 extraction loop does skip a missing (non-string) or
empty entry silently, and the v2 detectors are total on the empty string,
returning empty or neutral defaults; but the first-generation extraction loop
has no such guard — on a missing entry it calls `.lower()` on `None` and
aborts with an exception (modelled as `Except.error`) instead of skipping
it silently. -/
theorem c9_missing_entry_handling :
    KG1.extract_multi_event_relations [none] = Except.error () ∧
    V2.extract_multi_event_relations [none] = V2.emptyRelations ∧
    V2.extract_multi_event_relations [some ""] = V2.emptyRelations ∧
    V2.extract_multi_event_relations [none, some "", none] = V2.emptyRelations ∧
    V2.detect_event_type "" = ⟨false, false, false⟩ ∧
    V2.detect_mechanisms "" = [] ∧
    V2.detect_assets "" = [] ∧
    V2.extract_asset_movement_pairs "" = [] ∧
    V2.infer_direction_from_movement "" = "neutral" ∧
    V2.detect_employment_strength "" = none := by
  refine ⟨rfl, by decide, by decide, by decide, by decide, by decide,
    by decide, by decide, by decide, by decide⟩

end FinKG
